import Mathlib

/-!
# Synthizer: filter combination, event delivery and the streaming generator

A shallow embedding of three pieces of the Synthizer audio library and the
properties its specification states about them:

* `combineIIRFilters` and `designSincLowpass` from
  `include/synthizer/filter_design.hpp`;
* `PendingEvent::extract`, `EventSender`, `EventBuilder` and the senders of looped and
  finished events from `src/events.cpp`;
* `fillBufferFromDecoder`, `StreamingGenerator::generateBlockInBackground` and
  `StreamingGenerator::generateBlock` from `src/generators/streaming.cpp`.

Conventions of the embedding:

* C++ arrays are lists.  In `combineIIRFilters` a read or write outside an array
  makes the embedded function return `none`; the sample buffers of the streaming
  generator are lists in which a write past the end is dropped (the source sizes
  them so that no access is past the end).
* `double` and `float` values are elements of an arbitrary (semi)ring or field, or
  of `ℚ` where a concrete carrier is needed.  Every concrete input evaluated below
  consists of small integers, on which IEEE arithmetic is exact.  The windowed sinc,
  which calls `sin` and `cos`, is stated over the reals.
* `unsigned int` values are natural numbers reduced modulo `2 ^ 32` where the
  source can wrap.
* Loops that the source does not bound take a fuel argument and return `none`
  when the fuel runs out before the loop has exited.
-/

namespace synthizer

/-! ## Filter design: `combineIIRFilters` -/

/-- Coefficients of an IIR filter (`IIRFilterDef<num, den>`): `num_coefs` has `num`
entries, `den_coefs` has `den - 1` entries (the leading denominator coefficient is
always 1 and is not stored), `gain` is the factor removed by normalisation. -/
structure IIRFilterDef (α : Type) where
  num_coefs : List α
  den_coefs : List α
  gain : α
deriving DecidableEq, Repr

/-- The statement `working[k] += v` on an array: `none` when `k` is out of bounds. -/
def addAt {α : Type} [Add α] (working : List α) (k : Nat) (v : α) : Option (List α) :=
  match working[k]? with
  | some old => some (working.set k (old + v))
  | none => none

/-- The numerator loop nest of `combineIIRFilters` (source lines 125-131).  The inner
loop reads `f2.num_coefs[i]`, as the source does. -/
def combineNumLoop {α : Type} [Add α] [Mul α] (f1num f2num : List α) (workingNum : List α) :
    Option (List α) :=
  (List.range f1num.length).foldlM (fun w i => do
    let num1r ← f1num[i]?
    (List.range f2num.length).foldlM (fun w j => do
      let num2r ← f2num[i]?
      addAt w (i + j) (num1r * num2r)) w) workingNum

/-- The expression `i == 0 ? 1.0 : den_coefs[i-1]` (source lines 134 and 136). -/
def denAt {α : Type} [One α] (den_coefs : List α) (i : Nat) : Option α :=
  if i = 0 then some 1 else den_coefs[i - 1]?

/-- The denominator loop nest of `combineIIRFilters` (source lines 133-139); `den1` and
`den2` are the template sizes, one more than the stored lengths. -/
def combineDenLoop {α : Type} [Add α] [Mul α] [One α] (f1den f2den : List α)
    (workingDen : List α) : Option (List α) :=
  (List.range (f1den.length + 1)).foldlM (fun w i => do
    let den1r ← denAt f1den i
    (List.range (f2den.length + 1)).foldlM (fun w j => do
      let den2r ← denAt f2den j
      addAt w (i + j) (den1r * den2r)) w) workingDen

/-- The function `combineIIRFilters(f1, f2)`.  With `num1 = f1.num_coefs.length`,
`den1 = f1.den_coefs.length + 1` and likewise for `f2`, the working arrays have
`num1 + num2 - 1` and `den1 + den2 - 1` zero entries; the result drops the first entry
of the working denominator. -/
def combineIIRFilters {α : Type} [Zero α] [One α] [Add α] [Mul α]
    (f1 f2 : IIRFilterDef α) : Option (IIRFilterDef α) := do
  let newGain := f1.gain * f2.gain
  let workingNum := List.replicate (f1.num_coefs.length + f2.num_coefs.length - 1) (0 : α)
  let workingDen :=
    List.replicate ((f1.den_coefs.length + 1) + (f2.den_coefs.length + 1) - 1) (0 : α)
  let workingNum ← combineNumLoop f1.num_coefs f2.num_coefs workingNum
  let workingDen ← combineDenLoop f1.den_coefs f2.den_coefs workingDen
  some { num_coefs := workingNum, den_coefs := workingDen.drop 1, gain := newGain }

/-- The convolution of two coefficient lists as the specification words it:
`out[k]` is the sum over `i + j = k` of `a[i] * b[j]`, for `k < |a| + |b| - 1`. -/
def specConvolve {α : Type} [Zero α] [Add α] [Mul α] (a b : List α) : List α :=
  (List.range (a.length + b.length - 1)).map (fun k =>
    ((List.range (k + 1)).map (fun i =>
      match a[i]?, b[k - i]? with
      | some x, some y => x * y
      | _, _ => 0)).foldl (fun s t => s + t) 0)

/-- The value of a polynomial in `z⁻¹` with the given coefficients at `z`. -/
def polyAt (coefs : List ℚ) (z : ℚ) : ℚ :=
  ((List.range coefs.length).map (fun k => coefs.getD k 0 * (z⁻¹) ^ k)).foldl (fun s t => s + t) 0

/-- The transfer function `gain * N(z) / D(z)` of a filter at a rational point `z`, the
denominator having its implicit leading 1 restored. -/
def transferAt (f : IIRFilterDef ℚ) (z : ℚ) : ℚ :=
  f.gain * polyAt f.num_coefs z / polyAt (1 :: f.den_coefs) z

/-! ## Events: `PendingEvent::extract` and `EventSender` -/

/-- The enumeration `SYZ_EVENT_TYPES`: invalid must always be 0. -/
def SYZ_EVENT_TYPE_INVALID : Nat := 0

/-- Second enumerator of `SYZ_EVENT_TYPES`. -/
def SYZ_EVENT_TYPE_LOOPED : Nat := 1

/-- Third enumerator of `SYZ_EVENT_TYPES`. -/
def SYZ_EVENT_TYPE_FINISHED : Nat := 2

/-- Modelled from the spec: the record `syz_Event`, declared in `synthizer.h` which is
not among the sources: `{type, source_handle, context_handle, userdata_ptr,
payload_union}`.  The payload union holds only empty structs and carries no data, so
it has no field here. -/
structure syz_Event where
  type : Nat
  source : Nat
  context : Nat
  userdata : Nat
deriving DecidableEq, Repr

/-- The value-initialised event `syz_Event{}`: every field is zero. -/
def syz_Event.zero : syz_Event := { type := 0, source := 0, context := 0, userdata := 0 }

/-- Modelled from the spec: the part of a `CExposable` object the event code looks at
(the class is declared in `memory.hpp`, not among the sources): its C handle, its
userdata pointer and the "permanently dead" latch. -/
structure CExposable where
  c_handle : Nat
  userdata : Nat
  permanently_dead : Bool
deriving DecidableEq, Repr

/-- A `std::shared_ptr<CExposable>`: `none` is the null pointer. -/
abbrev SharedPtr := Option CExposable

/-- A `std::weak_ptr<CExposable>`: the address of the object it was made from. -/
abbrev WeakPtr := Nat

/-- The objects alive at some moment: `heap a = none` when the object at address `a`
has been destroyed, so that every weak pointer to it is expired. -/
abbrev Heap := Nat → Option CExposable

/-- The call `obj.expired()`. -/
def WeakPtr.expired (heap : Heap) (obj : WeakPtr) : Bool := (heap obj).isNone

/-- The call `obj.lock()`: null when expired. -/
def WeakPtr.lock (heap : Heap) (obj : WeakPtr) : SharedPtr := heap obj

/-- The overload `hasValidCHandle(const std::shared_ptr<CExposable> &)`. -/
def hasValidCHandle (obj : SharedPtr) : Bool :=
  match obj with
  | none => false
  | some o => o.permanently_dead == false

/-- The overload `hasValidCHandle(const std::weak_ptr<CExposable> &)`. -/
def hasValidCHandleWeak (heap : Heap) (obj : WeakPtr) : Bool :=
  WeakPtr.expired heap obj == false && hasValidCHandle (WeakPtr.lock heap obj)

/-- A `PendingEvent`: the stored event and the weak references it depends on. -/
structure PendingEvent where
  event : syz_Event
  referenced_handles : List WeakPtr
  valid : Bool
deriving DecidableEq, Repr

/-- The loop and final assignment of `PendingEvent::extract` (source lines 31-37): `out`
is the current content of `*out`; an invalid handle returns early leaving it as is. -/
def PendingEvent.extractLoop (heap : Heap) (event : syz_Event) :
    List WeakPtr → syz_Event → syz_Event
  | [], _ => event
  | o :: os, out =>
    if hasValidCHandleWeak heap o = false then out
    else PendingEvent.extractLoop heap event os out

/-- The method `PendingEvent::extract(out)`: the result is the final content of `*out`,
which the first statement has overwritten with `syz_Event{}`. -/
def PendingEvent.extract (heap : Heap) (pe : PendingEvent) (_out : syz_Event) : syz_Event :=
  PendingEvent.extractLoop heap pe.event pe.referenced_handles syz_Event.zero

/-- An `EventSender`: the queue of pending events (all enqueued through the one producer
token, hence first in, first out; the head of the list is the oldest) and the enabled flag. -/
structure EventSender where
  pending_events : List PendingEvent
  enabled : Bool
deriving DecidableEq, Repr

/-- The method `EventSender::setEnabled`. -/
def EventSender.setEnabled (self : EventSender) (val : Bool) : EventSender :=
  { self with enabled := val }

/-- The method `EventSender::isEnabled`. -/
def EventSender.isEnabled (self : EventSender) : Bool := self.enabled

/-- The method `EventSender::getNextEvent(out)`: returns the final `*out` and the sender. -/
def EventSender.getNextEvent (heap : Heap) (self : EventSender) (_out : syz_Event) :
    syz_Event × EventSender :=
  let out := syz_Event.zero
  match self.pending_events with
  | [] => (out, self)
  | maybe_event :: rest =>
    (PendingEvent.extract heap maybe_event out, { self with pending_events := rest })

/-- The method `EventSender::enqueue(event, handles)`. -/
def EventSender.enqueue (self : EventSender) (event : syz_Event) (handles : List WeakPtr) :
    EventSender :=
  if self.enabled = false then self
  else
    let pending : PendingEvent := { event := event, referenced_handles := handles, valid := true }
    { self with pending_events := self.pending_events ++ [pending] }

/-! ## Streaming generator: the decoder and resampler interfaces -/

/-- An audio sample (`float` in the source). -/
abbrev Sample := ℚ

/-- Wrap-around of `unsigned int`. -/
def UINT_MOD : Nat := 2 ^ 32

/-- Subtraction `a - b` of `unsigned int` values. -/
def u32sub (a b : Nat) : Nat := (a + UINT_MOD - b % UINT_MOD) % UINT_MOD

/-- Increment `a++` of an `unsigned int`. -/
def u32inc (a : Nat) : Nat := (a + 1) % UINT_MOD

/-- Outcome of `AudioDecoder::writeSamplesInterleaved(num, samples)`: either the number
of frames delivered together with the interleaved samples written at `samples` and the
decoder afterwards, or an exception (with the decoder afterwards; a read that throws
is taken to have written nothing). -/
inductive ReadResult (σ : Type) where
  | ok (got : Nat) (samples : List Sample) (decoder : σ)
  | threw (decoder : σ)

/-- Outcome of `AudioDecoder::seekSeconds(position)`. -/
inductive SeekResult (σ : Type) where
  | ok (decoder : σ)
  | threw (decoder : σ)

/-- Modelled from the spec: the interface `AudioDecoder` (declared in `decoding.hpp`,
not among the sources; concrete decoders are external collaborators), restricted to
the methods the streaming generator calls.  `σ` is the decoder's internal state. -/
structure AudioDecoder (σ : Type) where
  getSr : Nat
  getChannels : Nat
  supportsSeek : Bool
  writeSamplesInterleaved : σ → Nat → ReadResult σ
  seekSeconds : σ → ℚ → SeekResult σ

/-- Modelled from the spec: the two calls the generator makes on the external
`WDL_Resampler`.  `ResamplePrepare st out_samples nch` gives the number of input frames
wanted, the input buffer `rs_buf` and the new state; `ResampleOut st rs_buf nsamples_in
nsamples_out nch` gives the number of frames produced, the samples written at `out` and
the new state. -/
structure WDL_Resampler (ρ : Type) where
  ResamplePrepare : ρ → Nat → Nat → Nat × List Sample × ρ
  ResampleOut : ρ → List Sample → Nat → Nat → Nat → Nat × List Sample × ρ

/-- Writing the samples `xs` into a buffer from offset `off` on. -/
def writeAt : List Sample → Nat → List Sample → List Sample
  | buf, _, [] => buf
  | buf, off, x :: xs => writeAt (buf.set off x) (off + 1) xs

/-- The call `std::fill(buf + off, buf + off + n, 0.0f)`. -/
def fillZero (buf : List Sample) (off n : Nat) : List Sample :=
  writeAt buf off (List.replicate n 0)

/-! ## Streaming generator: `fillBufferFromDecoder` -/

/-- The struct `FillBufferRet`. -/
structure FillBufferRet where
  position : ℚ
  looped_count : Nat
  finished_count : Nat
deriving DecidableEq, Repr

/-- The local variables of `fillBufferFromDecoder` together with the memory at `dest`
and the decoder. -/
structure FillState (σ : Type) where
  needed : Nat
  justLooped : Bool
  cursor : Nat
  ret : FillBufferRet
  dest : List Sample
  decoder : σ

/-- What one pass through the body of the `while` loop does. -/
inductive FillStep (σ : Type) where
  | next (st : FillState σ)
  | exit (st : FillState σ)
  | threw (dest : List Sample) (decoder : σ)

/-- The body of the `while (needed > 0)` loop of `fillBufferFromDecoder` (source lines
127-145); `exit` is the `break`. -/
def fillBody {σ : Type} (decoder : AudioDecoder σ) (channels : Nat) (looping : Bool)
    (st : FillState σ) : FillStep σ :=
  match decoder.writeSamplesInterleaved st.decoder st.needed with
  | .threw d => .threw st.dest d
  | .ok got samples d =>
    let dest := writeAt st.dest st.cursor samples
    let cursor := st.cursor + channels * got
    let needed := u32sub st.needed got
    let ret := { st.ret with position := st.ret.position + (got : ℚ) / (decoder.getSr : ℚ) }
    let justLooped := st.justLooped && decide (got > 0)
    if needed > 0 ∧ justLooped = false ∧ looping = true ∧ decoder.supportsSeek = true then
      let ret := { ret with looped_count := u32inc ret.looped_count }
      match decoder.seekSeconds d 0 with
      | .threw d2 => .threw dest d2
      | .ok d2 =>
        .next { needed := needed, justLooped := true, cursor := cursor,
                ret := { ret with position := 0 }, dest := dest, decoder := d2 }
    else if needed > 0 then
      .exit { needed := needed, justLooped := justLooped, cursor := cursor,
              ret := { ret with finished_count := u32inc ret.finished_count },
              dest := dest, decoder := d }
    else
      .next { needed := needed, justLooped := justLooped, cursor := cursor, ret := ret,
              dest := dest, decoder := d }

/-- How the `while` loop of `fillBufferFromDecoder` is left: by its condition or the
`break` (with the locals as they are then), or by an exception of the decoder. -/
inductive FillExit (σ : Type) where
  | left (st : FillState σ)
  | threw (dest : List Sample) (decoder : σ)

/-- The `while (needed > 0)` loop of `fillBufferFromDecoder`: `none` when `fuel` passes
through the body were not enough for the loop to be left. -/
def fillLoop {σ : Type} (decoder : AudioDecoder σ) (channels : Nat) (looping : Bool) :
    Nat → FillState σ → Option (FillExit σ)
  | fuel, st =>
    if st.needed = 0 then some (.left st)
    else
      match fuel with
      | 0 => none
      | fuel + 1 =>
        match fillBody decoder channels looping st with
        | .next st2 => fillLoop decoder channels looping fuel st2
        | .exit st2 => some (.left st2)
        | .threw dest d => some (.threw dest d)

/-- How a call of `fillBufferFromDecoder` ends: it returns, or an exception of the
decoder leaves it; in both cases with the memory at `dest` and the decoder as they are
then. -/
inductive FillOutcome (σ : Type) where
  | returned (ret : FillBufferRet) (dest : List Sample) (decoder : σ)
  | threw (dest : List Sample) (decoder : σ)
deriving DecidableEq

/-- The function `fillBufferFromDecoder(decoder, size, channels, dest, looping,
position_in)`; `none` when the loop has not been left within `fuel` passes. -/
def fillBufferFromDecoder {σ : Type} (fuel : Nat) (decoder : AudioDecoder σ) (d : σ)
    (size channels : Nat) (dest : List Sample) (looping : Bool) (position_in : ℚ) :
    Option (FillOutcome σ) :=
  let st : FillState σ :=
    { needed := size, justLooped := false, cursor := 0,
      ret := { position := position_in, looped_count := 0, finished_count := 0 },
      dest := dest, decoder := d }
  match fillLoop decoder channels looping fuel st with
  | none => none
  | some (.threw dest d2) => some (.threw dest d2)
  | some (.left st2) =>
    some (.returned st2.ret (fillZero st2.dest st2.cursor (st2.needed * channels)) st2.decoder)

/-! ## Streaming generator: the background thread -/

/-- A `StreamingGeneratorCommand`.  `slot` is the index of the command in the
generator's `commands` vector, which fixes where its `buffer` pointer points;
`buffer` is the content of that block of memory (`BLOCK_SIZE * channels` samples). -/
structure StreamingGeneratorCommand where
  slot : Nat
  buffer : List Sample
  seek : Option ℚ
  looped_count : Nat
  finished_count : Nat
  final_position : ℚ
deriving DecidableEq, Repr

/-- A command as the constructor of `StreamingGenerator` sets it up (source lines 39-45):
its buffer is block number `slot` of the zero-filled `buffer` vector, no seek is
requested and the counters are zero. -/
def freshCommand (slot BLOCK_SIZE channels : Nat) : StreamingGeneratorCommand :=
  { slot := slot, buffer := List.replicate (BLOCK_SIZE * channels) 0, seek := none,
    looped_count := 0, finished_count := 0, final_position := 0 }

/-- The members of `StreamingGenerator` that the background thread owns: the decoder,
the resampler (`none` is `nullptr`), `background_position` and `sent_finished`. -/
structure BackgroundState (σ ρ : Type) where
  decoder : σ
  resampler : Option ρ
  background_position : ℚ
  sent_finished : Bool
deriving DecidableEq

/-- What a call of `generateBlockInBackground` leaves behind: the generator's members,
the command, and whether the `catch` block ran (and logged the error). -/
structure BackgroundResult (σ ρ : Type) where
  state : BackgroundState σ ρ
  cmd : StreamingGeneratorCommand
  error_logged : Bool
deriving DecidableEq

/-- Outcome of the seek handling at the top of the `try` block. -/
inductive SeekPhase (σ ρ : Type) where
  | ok (state : BackgroundState σ ρ)
  | threw (state : BackgroundState σ ρ)
deriving DecidableEq

/-- Source lines 157-163 of `generateBlockInBackground`: the seek, if the command asks
for one and the decoder can seek, and the reset of `sent_finished`. -/
def seekPhase {σ ρ : Type} (decoder : AudioDecoder σ) (self : BackgroundState σ ρ)
    (cmd : StreamingGeneratorCommand) : SeekPhase σ ρ :=
  let seeked : SeekPhase σ ρ :=
    match cmd.seek with
    | some v =>
      if decoder.supportsSeek = true then
        let self := { self with background_position := v }
        match decoder.seekSeconds self.decoder self.background_position with
        | .threw d => .threw { self with decoder := d }
        | .ok d => .ok { self with decoder := d }
      else .ok self
    | none => .ok self
  match seeked with
  | .threw self => .threw self
  | .ok self =>
    if cmd.seek.isSome = true then .ok { self with sent_finished := false }
    else .ok self

/-- Outcome of the decoding part of the `try` block: the fill information, the
generator's members and the memory at `out`; or an exception. -/
inductive FillPhase (σ ρ : Type) where
  | ok (fill_info : FillBufferRet) (state : BackgroundState σ ρ) (out : List Sample)
  | threw (state : BackgroundState σ ρ) (out : List Sample)
deriving DecidableEq

/-- Source lines 165-176 of `generateBlockInBackground`: decoding straight into `out`
when there is no resampler, through the resampler otherwise. -/
def fillPhase {σ ρ : Type} (fuel BLOCK_SIZE : Nat) (decoder : AudioDecoder σ)
    (resampler : WDL_Resampler ρ) (channels : Nat) (looping : Bool)
    (self : BackgroundState σ ρ) (out : List Sample) : Option (FillPhase σ ρ) :=
  match self.resampler with
  | none =>
    let out := fillZero out 0 (BLOCK_SIZE * channels)
    match fillBufferFromDecoder fuel decoder self.decoder BLOCK_SIZE channels out looping
        self.background_position with
    | none => none
    | some (.threw out d) => some (.threw { self with decoder := d } out)
    | some (.returned fill_info out d) => some (.ok fill_info { self with decoder := d } out)
  | some r =>
    match resampler.ResamplePrepare r BLOCK_SIZE channels with
    | (needed, rs_buf, r1) =>
      match fillBufferFromDecoder fuel decoder self.decoder needed channels rs_buf looping
          self.background_position with
      | none => none
      | some (.threw _ d) => some (.threw { self with decoder := d, resampler := some r1 } out)
      | some (.returned fill_info rs_buf d) =>
        match resampler.ResampleOut r1 rs_buf needed BLOCK_SIZE channels with
        | (resampled, written, r2) =>
          let out := writeAt out 0 written
          let out :=
            if resampled < BLOCK_SIZE then
              fillZero out (resampled * channels) (BLOCK_SIZE * channels - resampled * channels)
            else out
          some (.ok fill_info { self with decoder := d, resampler := some r2 } out)

/-- Source lines 178-189 of `generateBlockInBackground`: publishing the fill
information in the command, with the guard against repeated finished events. -/
def commitFill {σ ρ : Type} (self : BackgroundState σ ρ) (cmd : StreamingGeneratorCommand)
    (fill_info : FillBufferRet) : BackgroundResult σ ρ :=
  let self := { self with background_position := fill_info.position }
  let cmd := { cmd with looped_count := fill_info.looped_count,
                        finished_count := fill_info.finished_count,
                        final_position := self.background_position }
  if self.sent_finished = true then
    { state := self, cmd := { cmd with finished_count := 0 }, error_logged := false }
  else if cmd.finished_count > 0 then
    { state := { self with sent_finished := true }, cmd := cmd, error_logged := false }
  else
    { state := self, cmd := cmd, error_logged := false }

/-- The method `StreamingGenerator::generateBlockInBackground(cmd)`.  `looping` is the
value `getLooping()` returns, `channels` is `getChannels()`.  An exception of the decoder
ends the `try` block where it is thrown and is caught; `none` when the decoding loop
has not been left within `fuel` passes. -/
def generateBlockInBackground {σ ρ : Type} (fuel BLOCK_SIZE : Nat) (decoder : AudioDecoder σ)
    (resampler : WDL_Resampler ρ) (channels : Nat) (looping : Bool)
    (self : BackgroundState σ ρ) (cmd : StreamingGeneratorCommand) :
    Option (BackgroundResult σ ρ) :=
  match seekPhase decoder self cmd with
  | .threw self1 => some { state := self1, cmd := cmd, error_logged := true }
  | .ok self1 =>
    match fillPhase fuel BLOCK_SIZE decoder resampler channels looping self1 cmd.buffer with
    | none => none
    | some (.threw self2 out) =>
      some { state := self2, cmd := { cmd with buffer := out }, error_logged := true }
    | some (.ok fill_info self2 out) =>
      some (commitFill self2 { cmd with buffer := out } fill_info)

/-- Consecutive calls of `generateBlockInBackground`, one for each command handed to the
background thread, in order; the result lists the commands as they are handed back. -/
def runBackground {σ ρ : Type} (fuel BLOCK_SIZE : Nat) (decoder : AudioDecoder σ)
    (resampler : WDL_Resampler ρ) (channels : Nat) (looping : Bool) :
    BackgroundState σ ρ → List StreamingGeneratorCommand →
      Option (List StreamingGeneratorCommand × BackgroundState σ ρ)
  | self, [] => some ([], self)
  | self, cmd :: cmds =>
    match generateBlockInBackground fuel BLOCK_SIZE decoder resampler channels looping self cmd with
    | none => none
    | some r =>
      match runBackground fuel BLOCK_SIZE decoder resampler channels looping r.state cmds with
      | none => none
      | some (done, final) => some (r.cmd :: done, final)

/-! ## Decoders used as test inputs -/

/-- A decoder over a finite stream of `L` frames, as the specification describes one:
its state is the index of the next frame; a read of `k` frames returns `min k
(frames remaining)` frames (frame `p` holds the samples `data (p * channels + c)`);
seeking to `t` seconds moves to frame `⌊t * sr⌋`, at most to the end, so that
`seekSeconds(0)` rewinds to frame 0. -/
def finiteDecoder (sr channels L : Nat) (seekable : Bool) (data : Nat → Sample) :
    AudioDecoder Nat where
  getSr := sr
  getChannels := channels
  supportsSeek := seekable
  writeSamplesInterleaved := fun p k =>
    let got := min k (L - p)
    ReadResult.ok got ((List.range (got * channels)).map (fun i => data (p * channels + i)))
      (p + got)
  seekSeconds := fun _ t => SeekResult.ok (min L (Int.toNat (Rat.floor (t * (sr : ℚ)))))

/-- A resampler that is never called (for generators whose `resampler` is `nullptr`). -/
def noResampler : WDL_Resampler Unit where
  ResamplePrepare := fun r _ _ => (0, [], r)
  ResampleOut := fun r _ _ _ _ => (0, [], r)

/-! ## Filter design: `designSincLowpass` -/

/-- The function `designSincLowpass<N>(omega)` (source lines 80-111).  `double` is a
field `α`; the library functions `sin` and `cos` and the constant `PI`, which the header
takes from elsewhere, are parameters.  The result is an `IIRFilterDef<N, 1>`, which
stores no denominator coefficients. -/
def designSincLowpass {α : Type} [Field α] [DecidableEq α] (sin cos : α → α) (PI : α)
    (N : Nat) (omega : α) : IIRFilterDef α :=
  let center : α := ((N - 1 : Nat) : α) / 2
  let coefs : List α := (List.range N).map (fun i =>
    let x := PI * ((i : α) - center)
    let x := x * (omega * 2)
    let sinc := sin x / x
    let y := (i : α) / ((N - 1 : Nat) : α)
    let y := y * (2 * PI)
    let window := 0.35875 - 0.48829 * cos y + 0.14128 * cos (2 * y) - 0.01168 * cos (3 * y)
    if (i : α) = center then 1 else sinc * window)
  let gain := coefs.foldl (fun gain c => gain + c) 0
  let gain := 1 / (gain + 0.01)
  { num_coefs := coefs, den_coefs := [], gain := gain }

/-! ## Events: `EventBuilder` and the senders of looped and finished events -/

/-- A non-null `std::shared_ptr<CExposable>`: the address of the object (what a weak
pointer made from it refers to) and the object. -/
structure ObjectRef where
  addr : Nat
  obj : CExposable
deriving DecidableEq, Repr

/-- Modelled from the spec: the members of `EventBuilder` (the class is declared in
`events.hpp`, not among the sources): the event under construction, the weak references
gathered so far, and the three flags that `dispatch` looks at. -/
structure EventBuilder where
  event : syz_Event
  referenced_objects : List WeakPtr
  will_send : Bool
  has_source : Bool
  has_payload : Bool
deriving DecidableEq, Repr

/-- Modelled from the spec: a newly constructed `EventBuilder` (`events.hpp` is not among
the sources): an all-zero event that references nothing and will be sent, with no source
and no payload yet; these are the initial values under which the assertions of
`setPayload` and `dispatch` check what they say they check. -/
def EventBuilder.fresh : EventBuilder :=
  { event := syz_Event.zero, referenced_objects := [], will_send := true,
    has_source := false, has_payload := false }

/-- The method `EventBuilder::associateObject(obj)`: returns its result and the builder.
The handle vector is taken to have room, so that the assertion on `pushBack` holds. -/
def EventBuilder.associateObject (self : EventBuilder) (obj : Option ObjectRef) :
    Bool × EventBuilder :=
  if hasValidCHandle (obj.map (fun o => o.obj)) = false then (false, self)
  else
    match obj with
    | none => (false, self)
    | some o => (true, { self with referenced_objects := self.referenced_objects ++ [o.addr] })

/-- The method `EventBuilder::setSource(source)`. -/
def EventBuilder.setSource (self : EventBuilder) (source : Option ObjectRef) : EventBuilder :=
  match self.associateObject source, source with
  | (true, self), some o =>
    { self with event := { self.event with source := o.obj.c_handle, userdata := o.obj.userdata },
                has_source := true }
  | (_, self), _ => self

/-- The overload `EventBuilder::translateHandle(const std::shared_ptr<CExposable> &)`:
returns the handle and the builder. -/
def EventBuilder.translateHandle (self : EventBuilder) (object : Option ObjectRef) :
    Nat × EventBuilder :=
  match self.associateObject object, object with
  | (true, self), some o => (o.obj.c_handle, self)
  | (_, self), _ => (0, { self with will_send := false })

/-- The method `EventBuilder::setContext(ctx)`. -/
def EventBuilder.setContext (self : EventBuilder) (ctx : Option ObjectRef) : EventBuilder :=
  let translated := self.translateHandle ctx
  { translated.2 with event := { translated.2.event with context := translated.1 } }

/-- What stops the sending of an event short: one of the three assertions of the event
builder fails (the constructors are named after the assertions' messages), or the
context pointer through which the event is sent is null. -/
inductive SendFailure where
  | eventsMayOnlyHaveOnePayload
  | eventsMustHaveSources
  | eventsMustHavePayloads
  | nullContext
deriving DecidableEq, Repr

/-- The result of an operation that an assertion can stop. -/
inductive Checked (α : Type) where
  | ok (value : α)
  | failed (failure : SendFailure)
deriving DecidableEq, Repr

/-- The methods `EventBuilder::setPayload(payload)` that the `SP` lines generate; `E` is
the event type. -/
def EventBuilder.setPayload (self : EventBuilder) (E : Nat) : Checked EventBuilder :=
  if self.has_payload = false then
    Checked.ok { self with event := { self.event with type := E }, has_payload := true }
  else Checked.failed SendFailure.eventsMayOnlyHaveOnePayload

/-- The method `EventBuilder::dispatch(sender)`: returns the sender. -/
def EventBuilder.dispatch (self : EventBuilder) (sender : EventSender) : Checked EventSender :=
  if self.will_send = false then Checked.ok sender
  else if self.has_source = false then Checked.failed SendFailure.eventsMustHaveSources
  else if self.has_payload = false then Checked.failed SendFailure.eventsMustHavePayloads
  else Checked.ok (sender.enqueue self.event self.referenced_objects)

/-- Modelled from the spec: the part of a `Context` that sending an event involves (the
`context.hpp` among the sources does not declare it): the context as an exposed object,
and its event sender. -/
structure EventContext where
  self : ObjectRef
  event_sender : EventSender
deriving DecidableEq, Repr

/-- Modelled from the spec: `Context::sendEvent(callback)`, which is not among the
sources: the callback fills a new builder, which is then dispatched to the context's
event sender.  Whether it also looks at the enabled flag first cannot be seen and makes
no difference while events are enabled. -/
def EventContext.sendEvent (self : EventContext)
    (callback : EventBuilder → Checked EventBuilder) : Checked EventSender :=
  match callback EventBuilder.fresh with
  | Checked.failed failure => Checked.failed failure
  | Checked.ok builder => builder.dispatch self.event_sender

/-- The body shared by `sendFinishedEvent(ctx, source)` and `sendLoopedEvent(ctx, source)`
(source lines 131-145), `E` being the event type of the payload: the callback sets the
source, the context and the payload, in this order.  Calling `sendEvent` through a null
`ctx` is a failure. -/
def sendEventOfType (E : Nat) (ctx : Option EventContext) (source : Option ObjectRef) :
    Checked EventSender :=
  match ctx with
  | none => Checked.failed SendFailure.nullContext
  | some c =>
    c.sendEvent (fun builder =>
      ((builder.setSource source).setContext (some c.self)).setPayload E)

/-- The function `sendFinishedEvent(ctx, source)`. -/
def sendFinishedEvent (ctx : Option EventContext) (source : Option ObjectRef) :
    Checked EventSender :=
  sendEventOfType SYZ_EVENT_TYPE_FINISHED ctx source

/-- The function `sendLoopedEvent(ctx, source)`. -/
def sendLoopedEvent (ctx : Option EventContext) (source : Option ObjectRef) :
    Checked EventSender :=
  sendEventOfType SYZ_EVENT_TYPE_LOOPED ctx source

/-- Consecutive calls of `EventSender::getNextEvent`, one for each element of `heaps`
(the objects alive at the time of that call): returns the outputs in order and the
sender afterwards. -/
def EventSender.getNextEvents : List Heap → EventSender → List syz_Event × EventSender
  | [], self => ([], self)
  | heap :: heaps, self =>
    let first := self.getNextEvent heap syz_Event.zero
    let others := EventSender.getNextEvents heaps first.2
    (first.1 :: others.1, others.2)

/-! ## Streaming generator: the audio thread -/

/-- Modelled from the spec: a property of an object as the audio thread sees it (the
accessors are generated by the `PROPERTY_METHODS` machinery of `property_internals.hpp`,
not among the sources): its value and the "changed since last acquire" latch. -/
structure Property where
  value : ℚ
  changed : Bool
deriving DecidableEq, Repr

/-- Modelled from the spec: the write accessor `setPosition(value, track_change)`; a
write by the user tracks the change (the default), a write with `track_change = false`
leaves the latch alone. -/
def Property.set (p : Property) (value : ℚ) (track_change : Bool) : Property :=
  { value := value, changed := if track_change = true then true else p.changed }

/-- Modelled from the spec: the read accessor `getPosition()`. -/
def Property.get (p : Property) : ℚ := p.value

/-- Modelled from the spec: `acquirePosition(out)`: whether the property changed since
the last acquire, the value read into `out`, and the property with the latch cleared. -/
def Property.acquire (p : Property) : Bool × ℚ × Property :=
  (p.changed, p.value, { p with changed := false })

/-- Modelled from the spec: `markPositionUnchanged()`. -/
def Property.markUnchanged (p : Property) : Property := { p with changed := false }

/-- The members of `StreamingGenerator` that the audio thread touches in `generateBlock`:
the two ends of `background_thread` it uses (`filled` is what `receive` takes from,
`free` is what `send` hands to the worker; heads are oldest), the position property,
the context that `getContext()` returns (with the event sender the generator's events
go to), and the generator itself as the exposed object that `shared_from_this()`
gives. -/
structure StreamingGenerator where
  filled : List StreamingGeneratorCommand
  free : List StreamingGeneratorCommand
  position : Property
  context : EventContext
  exposed : ObjectRef
deriving DecidableEq, Repr

/-- The method `StreamingGenerator::initInAudioThread`, as far as the position goes. -/
def initInAudioThread (self : StreamingGenerator) : StreamingGenerator :=
  { self with position := self.position.markUnchanged }

/-- The callback handed to `gain_driver->drive` (source lines 83-88): `gain_cb i` is the
gain the fade driver gives for frame `i`. -/
def mixBlock (BLOCK_SIZE channels : Nat) (gain_cb : Nat → Sample) (buffer output : List Sample) :
    List Sample :=
  (List.range BLOCK_SIZE).foldl (fun output i =>
    let g := gain_cb i
    (List.range channels).foldl (fun output ch =>
      output.set (i * channels + ch)
        (output.getD (i * channels + ch) 0 + g * buffer.getD (i * channels + ch) 0)) output) output

/-- The loop `while (cmd->looped_count > 0) { cmd->looped_count--;
sendLoopedEvent(this->getContext(), this->shared_from_this()); }`: returns the counter
and the context, whose event sender the calls have changed; a failed assertion in one
of the calls ends the loop (and the program). -/
def sendLoopedEvents (exposed : ObjectRef) : Nat → EventContext → Checked (Nat × EventContext)
  | 0, context => Checked.ok (0, context)
  | looped_count + 1, context =>
    match sendLoopedEvent (some context) (some exposed) with
    | Checked.failed failure => Checked.failed failure
    | Checked.ok sender =>
      sendLoopedEvents exposed looped_count { context with event_sender := sender }

/-- The loop `while (cmd->finished_count > 0) { cmd->finished_count--;
sendFinishedEvent(this->getContext(), this->shared_from_this()); }`: returns the counter
and the context, whose event sender the calls have changed; a failed assertion in one
of the calls ends the loop (and the program). -/
def sendFinishedEvents (exposed : ObjectRef) : Nat → EventContext → Checked (Nat × EventContext)
  | 0, context => Checked.ok (0, context)
  | finished_count + 1, context =>
    match sendFinishedEvent (some context) (some exposed) with
    | Checked.failed failure => Checked.failed failure
    | Checked.ok sender =>
      sendFinishedEvents exposed finished_count { context with event_sender := sender }

/-- The method `StreamingGenerator::generateBlock(output, gain_driver)`: returns the
generator and the memory at `output`, unless an assertion fails while an event is sent,
which ends the program before the method returns. -/
def generateBlock (BLOCK_SIZE channels : Nat) (gain_cb : Nat → Sample)
    (self : StreamingGenerator) (output : List Sample) :
    Checked (StreamingGenerator × List Sample) :=
  match self.filled with
  | [] => Checked.ok (self, output)
  | cmd :: filled =>
    let output := mixBlock BLOCK_SIZE channels gain_cb cmd.buffer output
    let cmd := { cmd with seek := none }
    match sendLoopedEvents self.exposed cmd.looped_count self.context with
    | Checked.failed failure => Checked.failed failure
    | Checked.ok looped =>
      let cmd := { cmd with looped_count := looped.1 }
      match sendFinishedEvents self.exposed cmd.finished_count looped.2 with
      | Checked.failed failure => Checked.failed failure
      | Checked.ok finished =>
        let cmd := { cmd with finished_count := finished.1 }
        let acquired := self.position.acquire
        let cmd := if acquired.1 = true then { cmd with seek := some acquired.2.1 } else cmd
        let position := acquired.2.2.set cmd.final_position false
        Checked.ok
          ({ filled := filled, free := self.free ++ [cmd], position := position,
             context := finished.2, exposed := self.exposed },
           output)

/-! ## Events expected from a generator -/

/-- The pending event that the event of type `E` of a generator becomes once it is
enqueued: source and userdata are the generator's, the context handle is the
context's, and both objects are referenced. -/
def generatorEvent (E : Nat) (context : EventContext) (exposed : ObjectRef) : PendingEvent :=
  { event := { type := E, source := exposed.obj.c_handle, context := context.self.obj.c_handle,
               userdata := exposed.obj.userdata },
    referenced_handles := [exposed.addr, context.self.addr],
    valid := true }

/-- The event sender of a context after `n` events of type `E` of a generator with a
valid handle have been sent through it: the events are appended when the context has a
valid handle and events are enabled, and nothing changes otherwise. -/
def senderAfter (E n : Nat) (context : EventContext) (exposed : ObjectRef) : EventSender :=
  if context.self.obj.permanently_dead = false ∧ context.event_sender.enabled = true then
    { context.event_sender with
      pending_events := context.event_sender.pending_events
        ++ List.replicate n (generatorEvent E context exposed) }
  else context.event_sender

/-! ## Objects used as test inputs -/

/-- A context at address 1 with C handle 10, with the given permanently-dead latch and
the given event sender. -/
def testContext (permanently_dead : Bool) (event_sender : EventSender) : EventContext :=
  { self := { addr := 1, obj := { c_handle := 10, userdata := 0,
                                  permanently_dead := permanently_dead } },
    event_sender := event_sender }

/-- A generator at address 2 with C handle 20 and userdata 7, with the given
permanently-dead latch. -/
def testGenerator (permanently_dead : Bool) : ObjectRef :=
  { addr := 2, obj := { c_handle := 20, userdata := 7, permanently_dead := permanently_dead } }

/-- A filled command in slot 1 whose block holds two frames of one channel, with two
loops and one finish to report and the decoder at second 3. -/
def testCommand : StreamingGeneratorCommand :=
  { slot := 1, buffer := [1, 1], seek := none, looped_count := 2, finished_count := 1,
    final_position := 3 }

/-! ## Theorems: `combineIIRFilters` -/

/-- C1 (the code departs from the specification): on the numerators `[1, 2]` and `[3, 4]`, with
no stored denominator coefficients and gain 1, `combineIIRFilters` returns the numerator
`[3, 11, 8]`, while the convolution of the two numerators is `[3, 10, 8]`: the inner
loop multiplies by `f2.num_coefs[i]` where the convolution needs `f2.num_coefs[j]`.
At the point `z = 1` of the unit circle the combined filter has the value 22 and the
product of the two transfer functions is 21. -/
theorem combineIIRFilters_numerator_is_not_convolution :
    combineIIRFilters (⟨[1, 2], [], 1⟩ : IIRFilterDef ℚ) ⟨[3, 4], [], 1⟩
        = some ⟨[3, 11, 8], [], 1⟩
      ∧ specConvolve ([1, 2] : List ℚ) [3, 4] = [3, 10, 8]
      ∧ transferAt ⟨[3, 11, 8], [], 1⟩ 1 = 22
      ∧ transferAt ⟨[1, 2], [], 1⟩ 1 * transferAt ⟨[3, 4], [], 1⟩ 1 = 21 := by
  decide!

/-! ## Theorems: events -/

/-- The loop of `extract` yields the stored event when every handle is valid and leaves
the output alone otherwise. -/
theorem extractLoop_eq (heap : Heap) (event out : syz_Event) (handles : List WeakPtr) :
    PendingEvent.extractLoop heap event handles out
      = if handles.all (fun o => hasValidCHandleWeak heap o) = true then event else out := by
  induction handles with
  | nil => simp [PendingEvent.extractLoop]
  | cons o os ih =>
    unfold PendingEvent.extractLoop
    by_cases h : hasValidCHandleWeak heap o = true
    · simp [h, ih]
    · simp [h]

/-- A weak reference has a valid C handle exactly when its object is still alive and
not permanently dead. -/
theorem hasValidCHandleWeak_eq (heap : Heap) (o : WeakPtr) :
    hasValidCHandleWeak heap o
      = (match heap o with
         | some obj => !obj.permanently_dead
         | none => false) := by
  unfold hasValidCHandleWeak WeakPtr.expired WeakPtr.lock hasValidCHandle
  cases heap o with
  | none => simp
  | some obj => cases h : obj.permanently_dead <;> simp [h]

/-- C2: `PendingEvent::extract` outputs the stored event if every handle the event
references is alive (not expired) and not permanently dead, and the all-zero event
otherwise; the all-zero event has type `SYZ_EVENT_TYPE_INVALID`, which is 0; and
`EventSender::getNextEvent` outputs, for the event it dequeues, what `extract` outputs
for it. -/
theorem extract_outputs_event_iff_handles_valid (heap : Heap) (pe : PendingEvent)
    (out : syz_Event) (rest : List PendingEvent) (enabled : Bool) :
    PendingEvent.extract heap pe out
        = (if pe.referenced_handles.all (fun o =>
              match heap o with
              | some obj => !obj.permanently_dead
              | none => false) = true
           then pe.event else syz_Event.zero)
      ∧ syz_Event.zero.type = SYZ_EVENT_TYPE_INVALID
      ∧ SYZ_EVENT_TYPE_INVALID = 0
      ∧ EventSender.getNextEvent heap { pending_events := pe :: rest, enabled := enabled } out
          = (PendingEvent.extract heap pe out, { pending_events := rest, enabled := enabled }) := by
  refine ⟨?_, rfl, rfl, ?_⟩
  · unfold PendingEvent.extract
    rw [extractLoop_eq]
    simp only [hasValidCHandleWeak_eq]
  · simp [EventSender.getNextEvent, PendingEvent.extract]

/-! ## Theorems: `fillBufferFromDecoder` -/

/-- Unsigned subtraction is ordinary subtraction when nothing wraps. -/
theorem u32sub_of_le (a b : Nat) (hb : b ≤ a) (ha : a < UINT_MOD) : u32sub a b = a - b := by
  unfold u32sub
  have hb2 : b % UINT_MOD = b := Nat.mod_eq_of_lt (lt_of_le_of_lt hb ha)
  rw [hb2]
  have h3 : a + UINT_MOD - b = (a - b) + UINT_MOD := by omega
  rw [h3, Nat.add_mod_right]
  exact Nat.mod_eq_of_lt (lt_of_le_of_lt (Nat.sub_le a b) ha)

/-- What a read from the finite decoder returns. -/
theorem finiteDecoder_read (sr channels L : Nat) (seekable : Bool) (data : Nat → Sample)
    (p k : Nat) :
    (finiteDecoder sr channels L seekable data).writeSamplesInterleaved p k
      = ReadResult.ok (min k (L - p))
          ((List.range (min k (L - p) * channels)).map (fun i => data (p * channels + i)))
          (p + min k (L - p)) := rfl

/-- Seeking the finite decoder to the start rewinds it to frame 0. -/
theorem finiteDecoder_seek_zero (sr channels L : Nat) (seekable : Bool) (data : Nat → Sample)
    (p : Nat) :
    (finiteDecoder sr channels L seekable data).seekSeconds p 0 = SeekResult.ok 0 := by
  have h : Rat.floor ((0 : ℚ) * (sr : ℚ)) = 0 := by
    rw [zero_mul]; rfl
  simp only [finiteDecoder, h, Int.toNat_zero, Nat.min_zero]

/-- Whether the finite decoder can seek. -/
theorem finiteDecoder_supportsSeek (sr channels L : Nat) (seekable : Bool)
    (data : Nat → Sample) :
    (finiteDecoder sr channels L seekable data).supportsSeek = seekable := rfl

/-- On a zero-length seekable stream with looping on, the loop of
`fillBufferFromDecoder` is never left: every pass reads nothing, clears the latch,
seeks to the start and goes round again. -/
theorem fillLoop_zero_length_looping (sr channels : Nat) (data : Nat → Sample) (fuel : Nat) :
    ∀ st : FillState Nat, st.needed < UINT_MOD → 0 < st.needed →
      fillLoop (finiteDecoder sr channels 0 true data) channels true fuel st = none := by
  induction fuel with
  | zero =>
    intro st _ h0
    unfold fillLoop
    simp [Nat.ne_of_gt h0]
  | succ n ih =>
    intro st h1 h0
    have hsub : u32sub st.needed 0 = st.needed := by
      rw [u32sub_of_le _ _ (Nat.zero_le _) h1]; rfl
    unfold fillLoop
    simp only [Nat.ne_of_gt h0, if_false, fillBody, finiteDecoder_read, finiteDecoder_seek_zero,
      finiteDecoder_supportsSeek, Nat.zero_sub, Nat.min_zero, hsub]
    simp only [h0, gt_iff_lt, lt_self_iff_false, decide_False, Bool.and_false, and_self,
      if_true]
    exact ih _ h1 h0

/-- C3 (the code departs from the specification): for a seekable decoder over a zero-length
stream, with looping on and 256 frames requested, `fillBufferFromDecoder` has not
returned after any number of passes through its loop. -/
theorem fillBufferFromDecoder_zero_length_looping_never_returns (fuel : Nat) :
    fillBufferFromDecoder fuel (finiteDecoder 44100 1 0 true (fun _ => 0)) 0 256 1
      (List.replicate 256 0) true 0 = none := by
  simp only [fillBufferFromDecoder]
  rw [fillLoop_zero_length_looping 44100 1 (fun _ => 0) fuel _ (by decide) (by decide)]

/-- With looping off, `fillBufferFromDecoder` on the finite decoder returns after one
read: it advances the decoder by what was there to read and reports one finish exactly
when the stream ran short of the request. -/
theorem fillBufferFromDecoder_not_looping (sr channels L : Nat) (seekable : Bool)
    (data : Nat → Sample) (fuel p size : Nat) (dest : List Sample) (pos : ℚ)
    (hsize : size < UINT_MOD) :
    ∃ ret dest2,
      fillBufferFromDecoder (fuel + 1) (finiteDecoder sr channels L seekable data) p size
          channels dest false pos
        = some (FillOutcome.returned ret dest2 (p + min size (L - p)))
      ∧ ret.looped_count = 0
      ∧ ret.finished_count = (if L - p < size then 1 else 0) := by
  simp only [fillBufferFromDecoder]
  unfold fillLoop
  by_cases h0 : size = 0
  · subst h0
    simp
  · have hle : min size (L - p) ≤ size := Nat.min_le_left _ _
    simp only [h0, if_false, fillBody, finiteDecoder_read, u32sub_of_le _ _ hle hsize]
    by_cases hshort : L - p < size
    · have hpos : size - min size (L - p) > 0 := by
        rw [Nat.min_eq_right (Nat.le_of_lt hshort)]; omega
      simp [hpos, hshort, u32inc, UINT_MOD]
    · have hz : size - min size (L - p) = 0 := by
        rw [Nat.min_eq_left (Nat.le_of_not_lt hshort)]; omega
      unfold fillLoop
      simp [hz, hshort]

/-! ## Theorems: `generateBlockInBackground` -/

/-- Without a seek request the seek handling changes nothing. -/
theorem seekPhase_no_request {σ ρ : Type} (decoder : AudioDecoder σ)
    (self : BackgroundState σ ρ) (cmd : StreamingGeneratorCommand) (hseek : cmd.seek = none) :
    seekPhase decoder self cmd = SeekPhase.ok self := by
  simp [seekPhase, hseek]

/-- Without a resampler the decoding part zeroes the block and decodes straight into it. -/
theorem fillPhase_no_resampler {σ ρ : Type} (fuel BLOCK_SIZE : Nat) (decoder : AudioDecoder σ)
    (resampler : WDL_Resampler ρ) (channels : Nat) (looping : Bool)
    (self : BackgroundState σ ρ) (out : List Sample) (hres : self.resampler = none) :
    fillPhase fuel BLOCK_SIZE decoder resampler channels looping self out
      = (match fillBufferFromDecoder fuel decoder self.decoder BLOCK_SIZE channels
            (fillZero out 0 (BLOCK_SIZE * channels)) looping self.background_position with
         | none => none
         | some (FillOutcome.threw out d) => some (FillPhase.threw { self with decoder := d } out)
         | some (FillOutcome.returned fill_info out d) =>
           some (FillPhase.ok fill_info { self with decoder := d } out)) := by
  simp only [fillPhase, hres]

/-- One background block with looping off, no resampler and no seek request, on the
finite decoder: the decoder advances, and the command reports a finish exactly when the
stream ran short in this block and no finish had been reported before. -/
theorem generateBlockInBackground_not_looping {ρ : Type} (sr channels L : Nat)
    (seekable : Bool) (data : Nat → Sample) (resampler : WDL_Resampler ρ)
    (fuel BLOCK_SIZE : Nat) (self : BackgroundState Nat ρ) (cmd : StreamingGeneratorCommand)
    (hB : BLOCK_SIZE < UINT_MOD) (hres : self.resampler = none) (hseek : cmd.seek = none) :
    ∃ r,
      generateBlockInBackground (fuel + 1) BLOCK_SIZE (finiteDecoder sr channels L seekable data)
          resampler channels false self cmd = some r
      ∧ r.error_logged = false
      ∧ r.state.decoder = self.decoder + min BLOCK_SIZE (L - self.decoder)
      ∧ r.state.resampler = none
      ∧ r.state.sent_finished = (self.sent_finished || decide (L - self.decoder < BLOCK_SIZE))
      ∧ r.cmd.looped_count = 0
      ∧ r.cmd.finished_count
          = (if self.sent_finished = false ∧ L - self.decoder < BLOCK_SIZE then 1 else 0) := by
  obtain ⟨ret, dest2, hfill, hloop, hfin⟩ :=
    fillBufferFromDecoder_not_looping sr channels L seekable data fuel self.decoder BLOCK_SIZE
      (fillZero cmd.buffer 0 (BLOCK_SIZE * channels)) self.background_position hB
  unfold generateBlockInBackground
  rw [seekPhase_no_request _ _ _ hseek]
  simp only []
  rw [fillPhase_no_resampler _ _ _ _ _ _ _ _ hres, hfill]
  simp only [commitFill]
  by_cases hsf : self.sent_finished = true
  · simp [hsf, hloop, hres]
  · have hsf2 : self.sent_finished = false := by simpa using hsf
    by_cases hshort : L - self.decoder < BLOCK_SIZE
    · simp [hsf2, hloop, hfin, hshort, hres]
    · simp [hsf2, hloop, hfin, hshort, hres]

/-- The sum of the indicator of one index over `0, .., n - 1`. -/
theorem sum_indicator_range (m n : Nat) :
    ((List.range n).map (fun k => if k = m then 1 else 0)).sum = if m < n then 1 else 0 := by
  induction n with
  | zero => simp
  | succ n ih =>
    rw [List.range_succ, List.map_append, List.sum_append, ih]
    by_cases h1 : m < n
    · have h2 : n ≠ m := by omega
      have h3 : m < n + 1 := by omega
      simp [h1, h2, h3]
    · by_cases h2 : n = m
      · subst h2
        simp
      · have h3 : ¬ m < n + 1 := by omega
        simp [h1, h2, h3]

/-- Consecutive background blocks with looping off on the finite decoder, started when
`k` whole blocks have been decoded and a finish has been reported iff the stream ran
short in one of them: the block with index `L / BLOCK_SIZE`, counted from the start of
the stream, is the only one that reports a finish. -/
theorem runBackground_not_looping {ρ : Type} (sr channels L : Nat) (seekable : Bool)
    (data : Nat → Sample) (resampler : WDL_Resampler ρ) (fuel BLOCK_SIZE : Nat)
    (hB0 : 0 < BLOCK_SIZE) (hB : BLOCK_SIZE < UINT_MOD) :
    ∀ (cmds : List StreamingGeneratorCommand) (k : Nat) (self : BackgroundState Nat ρ),
      (∀ c ∈ cmds, c.seek = none) → self.resampler = none →
      self.decoder = min L (k * BLOCK_SIZE) →
      self.sent_finished = decide (L / BLOCK_SIZE < k) →
      ∃ done final,
        runBackground (fuel + 1) BLOCK_SIZE (finiteDecoder sr channels L seekable data) resampler
            channels false self cmds = some (done, final)
        ∧ done.map (fun c => c.finished_count)
            = (List.range cmds.length).map (fun i => if k + i = L / BLOCK_SIZE then 1 else 0)
        ∧ done.map (fun c => c.looped_count) = List.replicate cmds.length 0 := by
  intro cmds
  induction cmds with
  | nil =>
    intro k self _ _ _ _
    exact ⟨[], self, by simp [runBackground]⟩
  | cons cmd cmds ih =>
    intro k self hseek hres hdec hsf
    obtain ⟨r, hr, _, hrdec, hrres, hrsf, hrloop, hrfin⟩ :=
      generateBlockInBackground_not_looping sr channels L seekable data resampler fuel
        BLOCK_SIZE self cmd hB hres (hseek cmd (List.mem_cons_self _ _))
    have hshort : L - self.decoder < BLOCK_SIZE ↔ L / BLOCK_SIZE < k + 1 := by
      rw [Nat.div_lt_iff_lt_mul hB0, Nat.succ_mul, hdec]
      omega
    have hdec2 : r.state.decoder = min L ((k + 1) * BLOCK_SIZE) := by
      rw [hrdec, Nat.succ_mul, hdec]
      omega
    have hsf2 : r.state.sent_finished = decide (L / BLOCK_SIZE < k + 1) := by
      rw [hrsf, hsf]
      by_cases h1 : L / BLOCK_SIZE < k
      · have h2 : L / BLOCK_SIZE < k + 1 := by omega
        simp [h1, h2]
      · simp [h1, hshort]
    obtain ⟨done, final, hrun, hfin, hloop⟩ :=
      ih (k + 1) r.state (fun c hc => hseek c (List.mem_cons_of_mem _ hc)) hrres hdec2 hsf2
    refine ⟨r.cmd :: done, final, ?_, ?_, ?_⟩
    · simp only [runBackground, hr, hrun]
    · rw [List.map_cons, hfin, hrfin, List.length_cons, List.range_succ_eq_map, List.map_cons,
        List.map_map]
      congr 1
      · rw [hsf]
        by_cases h1 : k = L / BLOCK_SIZE
        · have h2 : ¬ L / BLOCK_SIZE < k := by omega
          have h3 : L / BLOCK_SIZE < k + 1 := by omega
          simp [h1, hshort, h3]
        · by_cases h2 : L / BLOCK_SIZE < k
          · simp [h1, h2]
          · have h3 : ¬ L / BLOCK_SIZE < k + 1 := by omega
            simp [h1, h2, hshort, h3]
      · apply List.map_congr_left
        intro i _
        simp only [Function.comp, Nat.succ_eq_add_one]
        have h : k + 1 + i = k + (i + 1) := by omega
        rw [h]
    · rw [List.map_cons, hloop, hrloop, List.length_cons, List.replicate_succ]

/-- C4: with looping off, no resampler, no seek requests and a finite decoder of `L`
frames that starts at frame 0 with no finish reported yet, consecutive calls of
`generateBlockInBackground` all return, and the command of call number `L / BLOCK_SIZE`
(the first block in which the decoder runs short) is handed back with
`finished_count = 1` while every other command has `finished_count = 0`.  So at most
one command has `finished_count > 0`, and exactly one has when `n * BLOCK_SIZE > L`. -/
theorem finished_count_is_one_exactly_once {ρ : Type} (sr channels L : Nat) (seekable : Bool)
    (data : Nat → Sample) (resampler : WDL_Resampler ρ) (fuel BLOCK_SIZE : Nat) (pos : ℚ)
    (cmds : List StreamingGeneratorCommand)
    (hB0 : 0 < BLOCK_SIZE) (hB : BLOCK_SIZE < UINT_MOD) (hfuel : 0 < fuel)
    (hseek : ∀ c ∈ cmds, c.seek = none) :
    ∃ done final,
      runBackground fuel BLOCK_SIZE (finiteDecoder sr channels L seekable data) resampler
          channels false
          { decoder := 0, resampler := none, background_position := pos, sent_finished := false }
          cmds = some (done, final)
      ∧ done.map (fun c => c.finished_count)
          = (List.range cmds.length).map (fun k => if k = L / BLOCK_SIZE then 1 else 0)
      ∧ (done.map (fun c => c.finished_count)).sum ≤ 1
      ∧ (cmds.length * BLOCK_SIZE > L → (done.map (fun c => c.finished_count)).sum = 1) := by
  obtain ⟨f, rfl⟩ : ∃ f, fuel = f + 1 := ⟨fuel - 1, by omega⟩
  obtain ⟨done, final, hrun, hfin, _⟩ :=
    runBackground_not_looping sr channels L seekable data resampler f BLOCK_SIZE hB0 hB cmds 0
      { decoder := 0, resampler := none, background_position := pos, sent_finished := false }
      hseek rfl (by simp) (by simp)
  have hfin2 : done.map (fun c => c.finished_count)
      = (List.range cmds.length).map (fun k => if k = L / BLOCK_SIZE then 1 else 0) := by
    rw [hfin]
    apply List.map_congr_left
    intro i _
    simp
  refine ⟨done, final, hrun, hfin2, ?_, ?_⟩
  · rw [hfin2, sum_indicator_range]
    split <;> omega
  · intro hn
    rw [hfin2, sum_indicator_range]
    have h : L / BLOCK_SIZE < cmds.length := (Nat.div_lt_iff_lt_mul hB0).mpr hn
    simp [h]

/-- A concrete run for C4: a stream of 300 frames, blocks of 256 frames, three blocks;
the second block reports the finish. -/
theorem finished_count_is_one_exactly_once_witness :
    (0 < 256 ∧ 256 < UINT_MOD ∧ 0 < 1 ∧
      ∀ c ∈ [freshCommand 0 256 1, freshCommand 1 256 1, freshCommand 2 256 1], c.seek = none) ∧
    ∃ done final,
      runBackground 1 256 (finiteDecoder 44100 1 300 true (fun _ => 1)) noResampler 1 false
          { decoder := 0, resampler := none, background_position := 0, sent_finished := false }
          [freshCommand 0 256 1, freshCommand 1 256 1, freshCommand 2 256 1] = some (done, final)
      ∧ done.map (fun c => c.finished_count)
          = (List.range [freshCommand 0 256 1, freshCommand 1 256 1, freshCommand 2 256 1].length).map
              (fun k => if k = 300 / 256 then 1 else 0)
      ∧ (done.map (fun c => c.finished_count)).sum ≤ 1
      ∧ ([freshCommand 0 256 1, freshCommand 1 256 1, freshCommand 2 256 1].length * 256 > 300 →
          (done.map (fun c => c.finished_count)).sum = 1) :=
  ⟨⟨by decide, by decide, by decide, by decide⟩,
    finished_count_is_one_exactly_once 44100 1 300 true (fun _ => 1) noResampler 1 256 0
      [freshCommand 0 256 1, freshCommand 1 256 1, freshCommand 2 256 1]
      (by decide) (by decide) (by decide) (by decide)⟩

/-- C5 (the code departs from the specification): with looping on, a seekable stream of one
frame and blocks of 256 frames, each of the first two background blocks is handed back
with `looped_count = 1` (and the first with `finished_count = 1`): after the seek the
read returns data, the latch stays set, and the loop breaks as if the stream had ended.
Two looped events are counted where `2 * 256 / 1 = 512` frames of a one-frame stream
were requested. -/
theorem looped_count_short_stream_one_per_block :
    (runBackground 2 256 (finiteDecoder 44100 1 1 true (fun _ => 1)) noResampler 1 true
        { decoder := 0, resampler := none, background_position := 0, sent_finished := false }
        [freshCommand 0 256 1, freshCommand 1 256 1]).map
        (fun r => r.1.map (fun c => (c.looped_count, c.finished_count)))
      = some [(1, 1), (1, 0)]
    ∧ 2 * 256 / 1 = 512 := by
  decide!

/-- The decoding part leaves `sent_finished` alone. -/
theorem fillPhase_sent_finished {σ ρ : Type} (fuel BLOCK_SIZE : Nat) (decoder : AudioDecoder σ)
    (resampler : WDL_Resampler ρ) (channels : Nat) (looping : Bool)
    (self self2 : BackgroundState σ ρ) (out out2 : List Sample) (fill_info : FillBufferRet)
    (h : fillPhase fuel BLOCK_SIZE decoder resampler channels looping self out
          = some (FillPhase.ok fill_info self2 out2)) :
    self2.sent_finished = self.sent_finished := by
  unfold fillPhase at h
  cases hres : self.resampler with
  | none =>
    simp only [hres] at h
    cases hf : fillBufferFromDecoder fuel decoder self.decoder BLOCK_SIZE channels
        (fillZero out 0 (BLOCK_SIZE * channels)) looping self.background_position with
    | none => simp [hf] at h
    | some o =>
      cases o with
      | threw o d => simp [hf] at h
      | returned fi o d =>
        simp only [hf, Option.some.injEq, FillPhase.ok.injEq] at h
        rw [← h.2.1]
  | some r =>
    simp only [hres] at h
    cases hf : fillBufferFromDecoder fuel decoder self.decoder
        (resampler.ResamplePrepare r BLOCK_SIZE channels).1 channels
        (resampler.ResamplePrepare r BLOCK_SIZE channels).2.1 looping self.background_position with
    | none => simp [hf] at h
    | some o =>
      cases o with
      | threw o d => simp [hf] at h
      | returned fi o d =>
        simp only [hf, Option.some.injEq, FillPhase.ok.injEq] at h
        rw [← h.2.1]

/-- The seek handling clears `sent_finished` exactly when the command carries a seek
request. -/
theorem seekPhase_sent_finished {σ ρ : Type} (decoder : AudioDecoder σ)
    (self self1 : BackgroundState σ ρ) (cmd : StreamingGeneratorCommand)
    (h : seekPhase decoder self cmd = SeekPhase.ok self1) :
    self1.sent_finished = (if cmd.seek.isSome = true then false else self.sent_finished) := by
  unfold seekPhase at h
  cases hs : cmd.seek with
  | none =>
    simp only [hs, Option.isSome_none, Bool.false_eq_true, if_false, SeekPhase.ok.injEq] at h
    simp [← h]
  | some v =>
    simp only [hs, Option.isSome_some, if_true] at h
    by_cases hsup : decoder.supportsSeek = true
    · simp only [hsup, if_true] at h
      cases hk : decoder.seekSeconds self.decoder v with
      | threw d => simp [hk] at h
      | ok d =>
        simp only [hk, SeekPhase.ok.injEq] at h
        simp [← h]
    · simp only [hsup, Bool.false_eq_true, if_false, SeekPhase.ok.injEq] at h
      simp [← h]

/-- Publishing the fill information never marks the result as an error. -/
theorem commitFill_error_logged {σ ρ : Type} (self : BackgroundState σ ρ)
    (cmd : StreamingGeneratorCommand) (fill_info : FillBufferRet) :
    (commitFill self cmd fill_info).error_logged = false := by
  unfold commitFill
  simp only []
  split
  · rfl
  · split <;> rfl

/-- C6, counterexample: a finite decoder that cannot seek stands at the end of its 10
frames with the finish already reported (`sent_finished = true`); a command carrying a
seek request arrives.  The decoder is not seeked (it stays at frame 10 and the
background position stays 0), yet `sent_finished` is cleared and the command is handed
back with `finished_count = 1`: clearing does not wait for an actual seek. -/
theorem sent_finished_cleared_without_a_seek :
    (finiteDecoder 44100 1 10 false (fun _ => 1)).supportsSeek = false
    ∧ seekPhase (finiteDecoder 44100 1 10 false (fun _ => 1))
          ({ decoder := 10, resampler := none, background_position := 0, sent_finished := true } :
            BackgroundState Nat Unit)
          { freshCommand 0 256 1 with seek := some 0 }
        = SeekPhase.ok
            { decoder := 10, resampler := none, background_position := 0, sent_finished := false }
    ∧ ¬ ((∀ s, seekPhase (finiteDecoder 44100 1 10 false (fun _ => 1))
              ({ decoder := 10, resampler := none, background_position := 0,
                 sent_finished := true } : BackgroundState Nat Unit)
              { freshCommand 0 256 1 with seek := some 0 } = SeekPhase.ok s →
            s.sent_finished = false)
          ↔ (({ freshCommand 0 256 1 with seek := some 0 } : StreamingGeneratorCommand).seek.isSome
                = true
              ∧ (finiteDecoder 44100 1 10 false (fun _ => 1)).supportsSeek = true))
    ∧ (generateBlockInBackground 1 256 (finiteDecoder 44100 1 10 false (fun _ => 1)) noResampler 1
          false
          { decoder := 10, resampler := none, background_position := 0, sent_finished := true }
          { freshCommand 0 256 1 with seek := some 0 }).map
          (fun r => (r.error_logged, r.cmd.finished_count, r.state.decoder))
        = some (false, 1, 10) := by
  have h2 : seekPhase (finiteDecoder 44100 1 10 false (fun _ => 1))
          ({ decoder := 10, resampler := none, background_position := 0, sent_finished := true } :
            BackgroundState Nat Unit)
          { freshCommand 0 256 1 with seek := some 0 }
        = SeekPhase.ok
            { decoder := 10, resampler := none, background_position := 0, sent_finished := false } := by
    decide!
  refine ⟨rfl, h2, ?_, by decide!⟩
  intro hiff
  have h3 := hiff.mp (by
    intro s hs
    rw [h2] at hs
    cases hs
    rfl)
  exact absurd h3.2 (by decide)

/-- C6, as the code has it: whenever the seek handling and the decoding of a block go
through without an exception, (1) the seek handling has cleared `sent_finished` exactly
when the command carries a seek request, whether or not the decoder supports seeking,
and (2) the command is handed back with `finished_count = 0` if a finish had been
recorded and the command carries no seek request, and with the finish count of this
block's decoding otherwise; `sent_finished` is set afterwards iff it stayed set or this
block reported a finish. -/
theorem finished_rearmed_by_seek_request {σ ρ : Type} (fuel BLOCK_SIZE : Nat)
    (decoder : AudioDecoder σ) (resampler : WDL_Resampler ρ) (channels : Nat) (looping : Bool)
    (self self1 self2 : BackgroundState σ ρ) (cmd : StreamingGeneratorCommand)
    (fill_info : FillBufferRet) (out : List Sample)
    (hseek : seekPhase decoder self cmd = SeekPhase.ok self1)
    (hfill : fillPhase fuel BLOCK_SIZE decoder resampler channels looping self1 cmd.buffer
              = some (FillPhase.ok fill_info self2 out)) :
    self1.sent_finished = (if cmd.seek.isSome = true then false else self.sent_finished)
    ∧ ∃ r,
        generateBlockInBackground fuel BLOCK_SIZE decoder resampler channels looping self cmd
          = some r
        ∧ r.error_logged = false
        ∧ r.cmd.finished_count
            = (if cmd.seek.isSome = false ∧ self.sent_finished = true then 0
               else fill_info.finished_count)
        ∧ r.state.sent_finished
            = (if cmd.seek.isSome = false ∧ self.sent_finished = true then true
               else decide (fill_info.finished_count > 0)) := by
  have h1 := seekPhase_sent_finished decoder self self1 cmd hseek
  have h2 := fillPhase_sent_finished fuel BLOCK_SIZE decoder resampler channels looping self1 self2
    cmd.buffer out fill_info hfill
  refine ⟨h1, commitFill self2 { cmd with buffer := out } fill_info, ?_,
    commitFill_error_logged _ _ _, ?_, ?_⟩
  · simp only [generateBlockInBackground, hseek, hfill]
  · unfold commitFill
    rw [h2, h1]
    cases hs : cmd.seek.isSome <;> cases hsf : self.sent_finished <;>
      by_cases hfc : fill_info.finished_count > 0 <;> simp [hfc]
  · unfold commitFill
    rw [h2, h1]
    cases hs : cmd.seek.isSome <;> cases hsf : self.sent_finished <;>
      by_cases hfc : fill_info.finished_count > 0 <;> simp [hfc]

/-- A concrete case for C6: a seekable stream of 44100 frames at 44100 Hz has been played
to its end and the finish recorded; a command asks to seek to second 1, which is
exactly the end of the stream.  The finish is reported again. -/
theorem finished_rearmed_by_seek_request_witness :
    (seekPhase (finiteDecoder 44100 1 44100 true (fun _ => 1))
          ({ decoder := 44100, resampler := none, background_position := 1,
             sent_finished := true } : BackgroundState Nat Unit)
          { freshCommand 0 256 1 with seek := some 1 }
        = SeekPhase.ok
            { decoder := 44100, resampler := none, background_position := 1,
              sent_finished := false }
      ∧ fillPhase 1 256 (finiteDecoder 44100 1 44100 true (fun _ => 1)) noResampler 1 false
          { decoder := 44100, resampler := none, background_position := 1,
            sent_finished := false }
          ({ freshCommand 0 256 1 with seek := some 1 } : StreamingGeneratorCommand).buffer
        = some (FillPhase.ok { position := 1, looped_count := 0, finished_count := 1 }
            { decoder := 44100, resampler := none, background_position := 1,
              sent_finished := false }
            (List.replicate 256 0)))
    ∧ (false = (if ({ freshCommand 0 256 1 with seek := some 1 } :
            StreamingGeneratorCommand).seek.isSome = true then false else true)
      ∧ ∃ r,
          generateBlockInBackground 1 256 (finiteDecoder 44100 1 44100 true (fun _ => 1))
              noResampler 1 false
              { decoder := 44100, resampler := none, background_position := 1,
                sent_finished := true }
              { freshCommand 0 256 1 with seek := some 1 }
            = some r
          ∧ r.error_logged = false
          ∧ r.cmd.finished_count
              = (if ({ freshCommand 0 256 1 with seek := some 1 } :
                    StreamingGeneratorCommand).seek.isSome = false ∧ true = true then 0
                 else 1)
          ∧ r.state.sent_finished
              = (if ({ freshCommand 0 256 1 with seek := some 1 } :
                    StreamingGeneratorCommand).seek.isSome = false ∧ true = true then true
                 else decide (1 > 0))) :=
  ⟨⟨by decide!, by decide!⟩,
    finished_rearmed_by_seek_request 1 256 (finiteDecoder 44100 1 44100 true (fun _ => 1))
      noResampler 1 false
      { decoder := 44100, resampler := none, background_position := 1, sent_finished := true }
      { decoder := 44100, resampler := none, background_position := 1, sent_finished := false }
      { decoder := 44100, resampler := none, background_position := 1, sent_finished := false }
      { freshCommand 0 256 1 with seek := some 1 }
      { position := 1, looped_count := 0, finished_count := 1 } (List.replicate 256 0)
      (by decide!) (by decide!)⟩

/-! ## Theorems: exceptions of the decoder -/

/-- Sending one event for a source with a valid handle never fails: the event is handed
to the sender when the context has a valid handle too, and dropped by the builder
otherwise. -/
theorem sendEventOfType_valid_source (E : Nat) (context : EventContext) (exposed : ObjectRef)
    (hsrc : exposed.obj.permanently_dead = false) :
    sendEventOfType E (some context) (some exposed)
      = Checked.ok (senderAfter E 1 context exposed) := by
  cases hctx : context.self.obj.permanently_dead <;>
    cases hen : context.event_sender.enabled <;>
    simp [sendEventOfType, EventContext.sendEvent, EventBuilder.fresh, EventBuilder.setSource,
      EventBuilder.associateObject, hasValidCHandle, EventBuilder.setContext,
      EventBuilder.translateHandle, EventBuilder.setPayload, EventBuilder.dispatch,
      EventSender.enqueue, senderAfter, generatorEvent, syz_Event.zero, hsrc, hctx, hen]

/-- Sending no event leaves the sender as it is. -/
theorem senderAfter_zero (E : Nat) (context : EventContext) (exposed : ObjectRef) :
    senderAfter E 0 context exposed = context.event_sender := by
  unfold senderAfter
  split <;> simp

/-- Sending `n + 1` events is sending one and then `n`. -/
theorem senderAfter_succ (E n : Nat) (context : EventContext) (exposed : ObjectRef) :
    senderAfter E n { context with event_sender := senderAfter E 1 context exposed } exposed
      = senderAfter E (n + 1) context exposed := by
  cases hctx : context.self.obj.permanently_dead <;>
    cases hen : context.event_sender.enabled <;>
    simp [senderAfter, generatorEvent, hctx, hen, List.replicate_succ]

/-- For a generator with a valid handle the looped-event loop never fails: it leaves
the counter at 0 and has sent `looped_count` looped events through the context. -/
theorem sendLoopedEvents_valid_source (exposed : ObjectRef)
    (hsrc : exposed.obj.permanently_dead = false) (looped_count : Nat) :
    ∀ context : EventContext,
      sendLoopedEvents exposed looped_count context
        = Checked.ok (0, { context with
            event_sender := senderAfter SYZ_EVENT_TYPE_LOOPED looped_count context exposed }) := by
  induction looped_count with
  | zero =>
    intro context
    rw [senderAfter_zero]
    rfl
  | succ n ih =>
    intro context
    rw [sendLoopedEvents, sendLoopedEvent,
      sendEventOfType_valid_source SYZ_EVENT_TYPE_LOOPED context exposed hsrc]
    simp only []
    rw [ih, senderAfter_succ]

/-- For a generator with a valid handle the finished-event loop never fails: it leaves
the counter at 0 and has sent `finished_count` finished events through the context. -/
theorem sendFinishedEvents_valid_source (exposed : ObjectRef)
    (hsrc : exposed.obj.permanently_dead = false) (finished_count : Nat) :
    ∀ context : EventContext,
      sendFinishedEvents exposed finished_count context
        = Checked.ok (0, { context with
            event_sender :=
              senderAfter SYZ_EVENT_TYPE_FINISHED finished_count context exposed }) := by
  induction finished_count with
  | zero =>
    intro context
    rw [senderAfter_zero]
    rfl
  | succ n ih =>
    intro context
    rw [sendFinishedEvents, sendFinishedEvent,
      sendEventOfType_valid_source SYZ_EVENT_TYPE_FINISHED context exposed hsrc]
    simp only []
    rw [ih, senderAfter_succ]

/-- Whenever the looped-event loop returns, the counter is 0. -/
theorem sendLoopedEvents_counter (exposed : ObjectRef) (looped_count : Nat) :
    ∀ (context : EventContext) (r : Nat × EventContext),
      sendLoopedEvents exposed looped_count context = Checked.ok r → r.1 = 0 := by
  induction looped_count with
  | zero =>
    intro context r h
    simp only [sendLoopedEvents, Checked.ok.injEq] at h
    rw [← h]
  | succ n ih =>
    intro context r h
    rw [sendLoopedEvents] at h
    cases hs : sendLoopedEvent (some context) (some exposed) with
    | failed f => simp [hs] at h
    | ok sender =>
      simp only [hs] at h
      exact ih _ r h

/-- Whenever the finished-event loop returns, the counter is 0. -/
theorem sendFinishedEvents_counter (exposed : ObjectRef) (finished_count : Nat) :
    ∀ (context : EventContext) (r : Nat × EventContext),
      sendFinishedEvents exposed finished_count context = Checked.ok r → r.1 = 0 := by
  induction finished_count with
  | zero =>
    intro context r h
    simp only [sendFinishedEvents, Checked.ok.injEq] at h
    rw [← h]
  | succ n ih =>
    intro context r h
    rw [sendFinishedEvents] at h
    cases hs : sendFinishedEvent (some context) (some exposed) with
    | failed f => simp [hs] at h
    | ok sender =>
      simp only [hs] at h
      exact ih _ r h

/-- What `generateBlock` does when a filled command is available, in terms of the two
event loops. -/
theorem generateBlock_filled (BLOCK_SIZE channels : Nat) (gain_cb : Nat → Sample)
    (self : StreamingGenerator) (output : List Sample) (cmd : StreamingGeneratorCommand)
    (rest : List StreamingGeneratorCommand) (hfilled : self.filled = cmd :: rest) :
    generateBlock BLOCK_SIZE channels gain_cb self output
      = (match sendLoopedEvents self.exposed cmd.looped_count self.context with
         | Checked.failed failure => Checked.failed failure
         | Checked.ok looped =>
           match sendFinishedEvents self.exposed cmd.finished_count looped.2 with
           | Checked.failed failure => Checked.failed failure
           | Checked.ok finished =>
             Checked.ok
               ({ filled := rest,
                  free := self.free ++
                    [{ slot := cmd.slot, buffer := cmd.buffer,
                       seek := if self.position.changed = true then some self.position.value
                               else none,
                       looped_count := looped.1, finished_count := finished.1,
                       final_position := cmd.final_position }],
                  position := { value := cmd.final_position, changed := false },
                  context := finished.2, exposed := self.exposed },
                mixBlock BLOCK_SIZE channels gain_cb cmd.buffer output)) := by
  unfold generateBlock
  rw [hfilled]
  simp only [Property.acquire, Property.set]
  cases sendLoopedEvents self.exposed cmd.looped_count self.context with
  | failed f => rfl
  | ok looped =>
    simp only []
    cases sendFinishedEvents self.exposed cmd.finished_count looped.2 with
    | failed f => rfl
    | ok finished =>
      cases hc : self.position.changed <;> simp

/-- Sending finished events after looped events through the same context. -/
theorem senderAfter_looped_then_finished (n m : Nat) (context : EventContext)
    (exposed : ObjectRef) :
    senderAfter SYZ_EVENT_TYPE_FINISHED m
        { context with event_sender := senderAfter SYZ_EVENT_TYPE_LOOPED n context exposed }
        exposed
      = (if context.self.obj.permanently_dead = false ∧ context.event_sender.enabled = true then
          { pending_events := context.event_sender.pending_events
              ++ List.replicate n (generatorEvent SYZ_EVENT_TYPE_LOOPED context exposed)
              ++ List.replicate m (generatorEvent SYZ_EVENT_TYPE_FINISHED context exposed),
            enabled := true }
         else context.event_sender) := by
  cases hctx : context.self.obj.permanently_dead <;>
    cases hen : context.event_sender.enabled <;>
    simp [senderAfter, generatorEvent, hctx, hen]

/-- C8, counterexample: a generator with a valid handle takes a filled command with
`looped_count = 2` and `finished_count = 1`.  When its context is permanently dead, and
likewise when events are disabled, `generateBlock` returns with the counters at 0 and
the command on the free ring, but the event sender's queue is still empty: no looped
and no finished event has been sent. -/
theorem generateBlock_sends_nothing_for_dead_context :
    testCommand.looped_count = 2 ∧ testCommand.finished_count = 1
    ∧ generateBlock 2 1 (fun _ => 1)
        { filled := [testCommand], free := [], position := { value := 0, changed := false },
          context := testContext true { pending_events := [], enabled := true },
          exposed := testGenerator false }
        [0, 0]
      = Checked.ok
          ({ filled := [],
             free := [{ testCommand with looped_count := 0, finished_count := 0 }],
             position := { value := 3, changed := false },
             context := testContext true { pending_events := [], enabled := true },
             exposed := testGenerator false },
           [1, 1])
    ∧ generateBlock 2 1 (fun _ => 1)
        { filled := [testCommand], free := [], position := { value := 0, changed := false },
          context := testContext false { pending_events := [], enabled := false },
          exposed := testGenerator false }
        [0, 0]
      = Checked.ok
          ({ filled := [],
             free := [{ testCommand with looped_count := 0, finished_count := 0 }],
             position := { value := 3, changed := false },
             context := testContext false { pending_events := [], enabled := false },
             exposed := testGenerator false },
           [1, 1]) := by
  decide!

/-- C8, as the code has it: when a filled command is available and the generator has a
valid C handle, `generateBlock` returns; if the context has a valid C handle and events
are enabled, exactly `cmd.looped_count` looped events followed by exactly
`cmd.finished_count` finished events (the counts on entry), each with the generator as
source and the context's handle, have been appended to the context's event queue, and
otherwise (context permanently dead, or events disabled) the queue is as before; both
counters of the command are 0 and that one command (same slot, same buffer) has been
handed to the free ring, once. -/
theorem generateBlock_sends_counted_events (BLOCK_SIZE channels : Nat) (gain_cb : Nat → Sample)
    (self : StreamingGenerator) (output : List Sample) (cmd : StreamingGeneratorCommand)
    (rest : List StreamingGeneratorCommand) (hfilled : self.filled = cmd :: rest)
    (hsrc : self.exposed.obj.permanently_dead = false) :
    ∃ r,
      generateBlock BLOCK_SIZE channels gain_cb self output = Checked.ok r
      ∧ r.1.context.event_sender
          = (if self.context.self.obj.permanently_dead = false
                ∧ self.context.event_sender.enabled = true then
              { pending_events := self.context.event_sender.pending_events
                  ++ List.replicate cmd.looped_count
                      (generatorEvent SYZ_EVENT_TYPE_LOOPED self.context self.exposed)
                  ++ List.replicate cmd.finished_count
                      (generatorEvent SYZ_EVENT_TYPE_FINISHED self.context self.exposed),
                enabled := true }
             else self.context.event_sender)
      ∧ r.1.context.self = self.context.self
      ∧ r.1.exposed = self.exposed
      ∧ r.1.filled = rest
      ∧ ∃ back,
          r.1.free = self.free ++ [back]
          ∧ back.slot = cmd.slot ∧ back.buffer = cmd.buffer
          ∧ back.final_position = cmd.final_position
          ∧ back.looped_count = 0 ∧ back.finished_count = 0 := by
  rw [generateBlock_filled BLOCK_SIZE channels gain_cb self output cmd rest hfilled,
    sendLoopedEvents_valid_source self.exposed hsrc]
  simp only []
  rw [sendFinishedEvents_valid_source self.exposed hsrc]
  simp only []
  refine ⟨_, rfl, ?_, rfl, rfl, rfl, _, rfl, rfl, rfl, rfl, rfl, rfl⟩
  exact senderAfter_looped_then_finished cmd.looped_count cmd.finished_count self.context
    self.exposed

/-- A concrete case for C8: a command with two loops and one finish, a live generator
and a live context with events enabled; the queue receives two looped events and then
one finished event. -/
theorem generateBlock_sends_counted_events_witness :
    (({ filled := [testCommand], free := [], position := { value := 0, changed := false },
        context := testContext false { pending_events := [], enabled := true },
        exposed := testGenerator false } : StreamingGenerator).filled = testCommand :: []
      ∧ (testGenerator false).obj.permanently_dead = false)
    ∧ ∃ r,
        generateBlock 2 1 (fun _ => 1)
          { filled := [testCommand], free := [], position := { value := 0, changed := false },
            context := testContext false { pending_events := [], enabled := true },
            exposed := testGenerator false }
          [0, 0] = Checked.ok r
        ∧ r.1.context.event_sender
            = (if (testContext false { pending_events := [], enabled := true }).self.obj.permanently_dead
                    = false
                  ∧ (testContext false
                      { pending_events := [], enabled := true }).event_sender.enabled = true then
                { pending_events := [] ++ List.replicate testCommand.looped_count
                      (generatorEvent SYZ_EVENT_TYPE_LOOPED
                        (testContext false { pending_events := [], enabled := true })
                        (testGenerator false))
                    ++ List.replicate testCommand.finished_count
                      (generatorEvent SYZ_EVENT_TYPE_FINISHED
                        (testContext false { pending_events := [], enabled := true })
                        (testGenerator false)),
                  enabled := true }
               else { pending_events := [], enabled := true })
        ∧ r.1.context.self = (testContext false { pending_events := [], enabled := true }).self
        ∧ r.1.exposed = testGenerator false
        ∧ r.1.filled = []
        ∧ ∃ back,
            r.1.free = [] ++ [back]
            ∧ back.slot = testCommand.slot ∧ back.buffer = testCommand.buffer
            ∧ back.final_position = testCommand.final_position
            ∧ back.looped_count = 0 ∧ back.finished_count = 0 :=
  ⟨⟨rfl, rfl⟩,
    generateBlock_sends_counted_events 2 1 (fun _ => 1)
      { filled := [testCommand], free := [], position := { value := 0, changed := false },
        context := testContext false { pending_events := [], enabled := true },
        exposed := testGenerator false }
      [0, 0] testCommand [] rfl rfl⟩

/-- C9, counterexample: the position is 0 and the user sets it to 5; the next filled
command was decoded up to second 1; generator and context are live.  `generateBlock`
returns, and after it a read of the position gives 1 and not 5. -/
theorem position_read_after_block_is_not_the_value_set :
    (∃ r,
      generateBlock 256 1 (fun _ => 1)
        { filled := [{ freshCommand 0 256 1 with final_position := 1 }], free := [],
          position := Property.set { value := 0, changed := false } 5 true,
          context := testContext false { pending_events := [], enabled := true },
          exposed := testGenerator false }
        (List.replicate 256 0) = Checked.ok r
      ∧ r.1.position.get = 1)
    ∧ (1 : ℚ) ≠ 5 := by
  refine ⟨?_, by norm_num⟩
  rw [generateBlock_filled 256 1 (fun _ => 1) _ _ _ [] rfl]
  exact ⟨_, rfl, rfl⟩

/-- C9, as the code has it: if the user sets the position to `v` and the audio thread
then runs `generateBlock` with a filled command available, then whenever `generateBlock`
returns, a read of the position returns that command's `final_position` (the position
the decoder had reached for that block); `v` is not lost but travels, as the seek
request, in the command handed to the free ring, and the changed latch is cleared.
`generateBlock` does return when the generator has a valid C handle, and also when the
command has no events to report. -/
theorem position_after_block_is_final_position (BLOCK_SIZE channels : Nat)
    (gain_cb : Nat → Sample) (self : StreamingGenerator) (output : List Sample) (v : ℚ)
    (cmd : StreamingGeneratorCommand) (rest : List StreamingGeneratorCommand)
    (hfilled : self.filled = cmd :: rest) :
    (∀ r,
      generateBlock BLOCK_SIZE channels gain_cb
          { self with position := self.position.set v true } output = Checked.ok r →
      r.1.position.get = cmd.final_position
      ∧ r.1.position.changed = false
      ∧ ∃ back, r.1.free = self.free ++ [back] ∧ back.slot = cmd.slot ∧ back.seek = some v)
    ∧ (self.exposed.obj.permanently_dead = false
        ∨ (cmd.looped_count = 0 ∧ cmd.finished_count = 0) →
        ∃ r, generateBlock BLOCK_SIZE channels gain_cb
          { self with position := self.position.set v true } output = Checked.ok r) := by
  rw [generateBlock_filled BLOCK_SIZE channels gain_cb
    { self with position := self.position.set v true } output cmd rest hfilled]
  simp only []
  constructor
  · intro r hr
    cases hl : sendLoopedEvents self.exposed cmd.looped_count self.context with
    | failed f => simp [hl] at hr
    | ok looped =>
      simp only [hl] at hr
      cases hf : sendFinishedEvents self.exposed cmd.finished_count looped.2 with
      | failed f => simp [hf] at hr
      | ok finished =>
        simp only [hf, Checked.ok.injEq] at hr
        subst hr
        exact ⟨rfl, rfl, _, rfl, rfl, by simp [Property.set]⟩
  · intro h
    rcases h with hsrc | ⟨h1, h2⟩
    · rw [sendLoopedEvents_valid_source self.exposed hsrc]
      simp only []
      rw [sendFinishedEvents_valid_source self.exposed hsrc]
      exact ⟨_, rfl⟩
    · rw [h1, h2]
      exact ⟨_, rfl⟩

/-- A concrete case for C9: position set to 5 while the next command ends at second 1. -/
theorem position_after_block_is_final_position_witness :
    ({ filled := [{ freshCommand 0 256 1 with final_position := 1 }], free := [],
       position := { value := 0, changed := false },
       context := testContext false { pending_events := [], enabled := true },
       exposed := testGenerator false } : StreamingGenerator).filled
      = { freshCommand 0 256 1 with final_position := 1 } :: []
    ∧ ∃ r,
        generateBlock 256 1 (fun _ => 1)
          { ({ filled := [{ freshCommand 0 256 1 with final_position := 1 }], free := [],
               position := { value := 0, changed := false },
               context := testContext false { pending_events := [], enabled := true },
               exposed := testGenerator false } : StreamingGenerator)
            with position := Property.set { value := 0, changed := false } 5 true }
          (List.replicate 256 0) = Checked.ok r
        ∧ r.1.position.get = 1
        ∧ r.1.position.changed = false
        ∧ ∃ back, r.1.free = [] ++ [back] ∧ back.slot = 0 ∧ back.seek = some 5 := by
  refine ⟨rfl, ?_⟩
  have h := position_after_block_is_final_position 256 1 (fun _ => 1)
    { filled := [{ freshCommand 0 256 1 with final_position := 1 }], free := [],
      position := { value := 0, changed := false },
      context := testContext false { pending_events := [], enabled := true },
      exposed := testGenerator false }
    (List.replicate 256 0) 5 { freshCommand 0 256 1 with final_position := 1 } [] rfl
  obtain ⟨r, hr⟩ := h.2 (Or.inl rfl)
  exact ⟨r, hr, h.1 r hr⟩

/-- C10: when no filled command is available, `generateBlock` returns and changes
nothing: the output buffer, the context with its event queue (no looped or finished
event is sent), the position with its changed latch, and both rings are as before. -/
theorem generateBlock_underrun_changes_nothing (BLOCK_SIZE channels : Nat)
    (gain_cb : Nat → Sample) (self : StreamingGenerator) (output : List Sample)
    (hempty : self.filled = []) :
    generateBlock BLOCK_SIZE channels gain_cb self output = Checked.ok (self, output) := by
  unfold generateBlock
  rw [hempty]

/-- A concrete case for C10: an underrun with a pending position change, two commands on
the free ring and an event already in the queue. -/
theorem generateBlock_underrun_changes_nothing_witness :
    ({ filled := [], free := [freshCommand 0 2 1, freshCommand 1 2 1],
       position := { value := 5, changed := true },
       context := testContext false
         { pending_events := [generatorEvent SYZ_EVENT_TYPE_LOOPED
             (testContext false { pending_events := [], enabled := true })
             (testGenerator false)],
           enabled := true },
       exposed := testGenerator false } : StreamingGenerator).filled = []
    ∧ generateBlock 2 1 (fun _ => 1)
        { filled := [], free := [freshCommand 0 2 1, freshCommand 1 2 1],
          position := { value := 5, changed := true },
          context := testContext false
            { pending_events := [generatorEvent SYZ_EVENT_TYPE_LOOPED
                (testContext false { pending_events := [], enabled := true })
                (testGenerator false)],
              enabled := true },
          exposed := testGenerator false }
        [7, 8]
      = Checked.ok
          ({ filled := [], free := [freshCommand 0 2 1, freshCommand 1 2 1],
             position := { value := 5, changed := true },
             context := testContext false
               { pending_events := [generatorEvent SYZ_EVENT_TYPE_LOOPED
                   (testContext false { pending_events := [], enabled := true })
                   (testGenerator false)],
                 enabled := true },
             exposed := testGenerator false },
           [7, 8]) :=
  ⟨rfl, generateBlock_underrun_changes_nothing 2 1 (fun _ => 1)
    { filled := [], free := [freshCommand 0 2 1, freshCommand 1 2 1],
      position := { value := 5, changed := true },
      context := testContext false
        { pending_events := [generatorEvent SYZ_EVENT_TYPE_LOOPED
            (testContext false { pending_events := [], enabled := true })
            (testGenerator false)],
          enabled := true },
      exposed := testGenerator false }
    [7, 8] rfl⟩

/-! ## Theorems: the denominator of `combineIIRFilters` -/

/-- Adding at an index inside a tabulated list updates the tabulated function. -/
theorem addAt_map_range {α : Type} [Add α] (n k : Nat) (f : Nat → α) (v : α) (hk : k < n) :
    addAt ((List.range n).map f) k v
      = some ((List.range n).map (Function.update f k (f k + v))) := by
  unfold addAt
  have h1 : ((List.range n).map f)[k]? = some (f k) := by
    simp [List.getElem?_map, List.getElem?_range hk]
  rw [h1]
  simp only [Option.some.injEq]
  apply List.ext_getElem?
  intro idx
  rw [List.getElem?_set, List.getElem?_map, List.getElem?_map]
  by_cases hi : idx < n
  · rw [List.getElem?_range hi]
    by_cases hki : k = idx
    · subst hki
      simp [hk]
    · simp [hki, Function.update, Ne.symm hki]
  · have h4 : (List.range n)[idx]? = none := by simp [List.getElem?_eq_none_iff]; omega
    rw [h4]
    by_cases hki : k = idx
    · omega
    · simp [hki]

/-- Reading the denominator with its leading 1 restored. -/
theorem denAt_eq {α : Type} [One α] (den : List α) (i : Nat) : denAt den i = (1 :: den)[i]? := by
  cases i with
  | zero => simp [denAt]
  | succ i => simp [denAt]

/-- A left fold of additions over a tabulated list is the sum over the range. -/
theorem foldl_add_map_range {α : Type} [AddCommMonoid α] (g : Nat → α) (m : Nat) :
    ((List.range m).map g).foldl (fun s t => s + t) 0 = ∑ i in Finset.range m, g i := by
  induction m with
  | zero => simp
  | succ m ih =>
    rw [List.range_succ, List.map_append, List.foldl_append, ih, Finset.sum_range_succ]
    simp

/-- The inner loop of a convolution nest on a tabulated working array: after the passes
`j = 0, .., J - 1` entry `k` has gained `x * B (k - i)` when `i ≤ k < i + J`. -/
theorem convolveInner_eq {α : Type} [Semiring α] (n i : Nat) (x : α) (bopt : Nat → Option α)
    (B : Nat → α) (J : Nat) (hB : ∀ j < J, bopt j = some (B j)) (hn : i + J ≤ n)
    (f : Nat → α) :
    (List.range J).foldlM (fun w j => do
        let y ← bopt j
        addAt w (i + j) (x * y)) ((List.range n).map f)
      = some ((List.range n).map
          (fun k => f k + if i ≤ k ∧ k - i < J then x * B (k - i) else 0)) := by
  induction J with
  | zero => simp
  | succ J ih =>
    rw [List.range_succ, List.foldlM_append,
      ih (fun j hj => hB j (Nat.lt_succ_of_lt hj)) (by omega)]
    simp only [Option.bind_eq_bind, Option.some_bind, List.foldlM_cons, List.foldlM_nil,
      hB J (Nat.lt_succ_self J), Option.bind_some]
    rw [addAt_map_range n (i + J) _ _ (by omega)]
    simp only [Option.some_bind, Option.pure_def, Option.some.injEq]
    apply List.map_congr_left
    intro k _
    by_cases hk : k = i + J
    · subst hk
      have h1 : ¬ (i ≤ i + J ∧ i + J - i < J) := by omega
      have h2 : i ≤ i + J ∧ i + J - i < J + 1 := by omega
      have h3 : i + J - i = J := by omega
      simp [h1, h2, h3]
    · have h1 : (i ≤ k ∧ k - i < J + 1) ↔ (i ≤ k ∧ k - i < J) := by omega
      simp [Function.update, hk, h1]

/-- The loop nest of `combineIIRFilters` on a tabulated working array: after the outer
passes `i = 0, .., I - 1` entry `k` has gained the sum of `A i * B i (k - i)` over the
`i < I` with `i ≤ k < i + lb`.  The factor read in the inner loop may depend on `i`. -/
theorem convolveOuter_eq {α : Type} [Semiring α] (n lb : Nat) (aopt : Nat → Option α)
    (bopt : Nat → Nat → Option α) (A : Nat → α) (B : Nat → Nat → α) (I : Nat)
    (hA : ∀ i < I, aopt i = some (A i))
    (hB : ∀ i < I, ∀ j < lb, bopt i j = some (B i j)) (hn : I + lb ≤ n + 1) (f : Nat → α) :
    (List.range I).foldlM (fun w i => do
        let x ← aopt i
        (List.range lb).foldlM (fun w j => do
          let y ← bopt i j
          addAt w (i + j) (x * y)) w) ((List.range n).map f)
      = some ((List.range n).map
          (fun k => f k + ∑ i in Finset.range I,
            if i ≤ k ∧ k - i < lb then A i * B i (k - i) else 0)) := by
  induction I with
  | zero => simp
  | succ I ih =>
    rw [List.range_succ, List.foldlM_append,
      ih (fun i hi => hA i (Nat.lt_succ_of_lt hi))
        (fun i hi => hB i (Nat.lt_succ_of_lt hi)) (by omega)]
    simp only [Option.bind_eq_bind, Option.some_bind, List.foldlM_cons, List.foldlM_nil,
      hA I (Nat.lt_succ_self I), Option.bind_some]
    have h := convolveInner_eq n I (A I) (bopt I) (B I) lb (hB I (Nat.lt_succ_self I))
      (by omega)
      (fun k => f k + ∑ i in Finset.range I,
            if i ≤ k ∧ k - i < lb then A i * B i (k - i) else 0)
    simp only [Option.bind_eq_bind] at h
    rw [h]
    simp only [Option.some_bind, Option.pure_def, Option.some.injEq]
    apply List.map_congr_left
    intro k _
    rw [Finset.sum_range_succ, add_assoc]

/-- The convolution as the specification words it, with every entry written as a sum
over a range. -/
theorem specConvolve_eq_sum {α : Type} [Semiring α] (a b : List α) :
    specConvolve a b
      = (List.range (a.length + b.length - 1)).map (fun k =>
          ∑ i in Finset.range (k + 1),
            if i < a.length ∧ k - i < b.length then a.getD i 0 * b.getD (k - i) 0 else 0) := by
  unfold specConvolve
  apply List.map_congr_left
  intro k _
  rw [foldl_add_map_range]
  apply Finset.sum_congr rfl
  intro i _
  by_cases hi : i < a.length
  · by_cases hj : k - i < b.length
    · simp [hi, hj, List.getElem?_eq_getElem, List.getD_eq_getElem?_getD]
    · have h : b[k - i]? = none := by simp [List.getElem?_eq_none_iff]; omega
      simp [hi, hj, h]
  · have h : a[i]? = none := by simp [List.getElem?_eq_none_iff]; omega
    simp [hi, h]

/-- The sum over `i ≤ k` of the terms with `i` inside the first list is the sum over the
first list of the terms with `i ≤ k`. -/
theorem sum_convolution_reindex {α : Type} [Semiring α] (la lb k : Nat) (g : Nat → α) :
    (∑ i in Finset.range (k + 1), if i < la ∧ k - i < lb then g i else 0)
      = ∑ i in Finset.range la, if i ≤ k ∧ k - i < lb then g i else 0 := by
  rw [← Finset.sum_filter, ← Finset.sum_filter]
  congr 1
  ext i
  simp only [Finset.mem_filter, Finset.mem_range]
  omega

/-- The denominator loop nest of `combineIIRFilters`, started on zeros, yields the
convolution of the two denominators with their leading 1s restored. -/
theorem combineDenLoop_eq_specConvolve {α : Type} [Semiring α] (f1den f2den : List α) :
    combineDenLoop f1den f2den
        (List.replicate ((f1den.length + 1) + (f2den.length + 1) - 1) (0 : α))
      = some (specConvolve (1 :: f1den) (1 :: f2den)) := by
  have hrep : List.replicate ((f1den.length + 1) + (f2den.length + 1) - 1) (0 : α)
      = (List.range ((f1den.length + 1) + (f2den.length + 1) - 1)).map (fun _ => (0 : α)) := by
    simp
  have hA : ∀ i < f1den.length + 1, denAt f1den i = some ((1 :: f1den).getD i 0) := by
    intro i hi
    rw [denAt_eq, List.getElem?_eq_getElem (by simpa using hi)]
    simp [List.getD_eq_getElem?_getD, List.getElem?_eq_getElem, hi]
  have hB : ∀ j < f2den.length + 1, denAt f2den j = some ((1 :: f2den).getD j 0) := by
    intro j hj
    rw [denAt_eq, List.getElem?_eq_getElem (by simpa using hj)]
    simp [List.getD_eq_getElem?_getD, List.getElem?_eq_getElem, hj]
  unfold combineDenLoop
  rw [hrep]
  have h := convolveOuter_eq ((f1den.length + 1) + (f2den.length + 1) - 1) (f2den.length + 1)
    (denAt f1den) (fun _ j => denAt f2den j) (fun i => (1 :: f1den).getD i 0)
    (fun _ j => (1 :: f2den).getD j 0) (f1den.length + 1) hA (fun _ _ j hj => hB j hj)
    (by omega) (fun _ => (0 : α))
  rw [h]
  rw [specConvolve_eq_sum, List.length_cons, List.length_cons]
  apply congrArg some
  apply List.map_congr_left
  intro k _
  rw [sum_convolution_reindex, zero_add]

/-- When the first numerator is no longer than the second, the numerator loop nest of
`combineIIRFilters` stays inside its arrays and returns a result. -/
theorem combineNumLoop_isSome {α : Type} [Semiring α] (f1num f2num : List α)
    (hlen : f1num.length ≤ f2num.length) :
    (combineNumLoop f1num f2num
        (List.replicate (f1num.length + f2num.length - 1) (0 : α))).isSome = true := by
  have hrep : List.replicate (f1num.length + f2num.length - 1) (0 : α)
      = (List.range (f1num.length + f2num.length - 1)).map (fun _ => (0 : α)) := by
    simp
  have hA : ∀ i < f1num.length, f1num[i]? = some (f1num.getD i 0) := by
    intro i hi
    simp [List.getD_eq_getElem?_getD, List.getElem?_eq_getElem, hi]
  have hB : ∀ i < f1num.length, f2num[i]? = some (f2num.getD i 0) := by
    intro i hi
    have hi2 : i < f2num.length := lt_of_lt_of_le hi hlen
    simp [List.getD_eq_getElem?_getD, List.getElem?_eq_getElem, hi2]
  unfold combineNumLoop
  rw [hrep]
  have h := convolveOuter_eq (f1num.length + f2num.length - 1) f2num.length
    (fun i => f1num[i]?) (fun i _ => f2num[i]?) (fun i => f1num.getD i 0)
    (fun i _ => f2num.getD i 0) f1num.length hA (fun i hi _ _ => hB i hi)
    (by omega) (fun _ => (0 : α))
  rw [h]
  rfl

/-- C11: for all filters `f1` and `f2`, with full denominators `a = 1 :: f1.den_coefs`
and `b = 1 :: f2.den_coefs`: the convolution `a * b` has leading coefficient 1; the
denominator loop nest of `combineIIRFilters` computes exactly `a * b`; the result of
`combineIIRFilters` has `a * b` with the leading coefficient stripped as its
`den_coefs`, of length `den1 + den2 - 2` (the sum of the two stored lengths), and
`f1.gain * f2.gain` as its gain.  The result exists whenever the numerator loop stays
inside its arrays, in particular whenever `num1 ≤ num2`. -/
theorem combineIIRFilters_denominator_is_convolution {α : Type} [Semiring α]
    (f1 f2 : IIRFilterDef α) :
    (specConvolve (1 :: f1.den_coefs) (1 :: f2.den_coefs))[0]? = some 1
    ∧ combineDenLoop f1.den_coefs f2.den_coefs
          (List.replicate ((f1.den_coefs.length + 1) + (f2.den_coefs.length + 1) - 1) (0 : α))
        = some (specConvolve (1 :: f1.den_coefs) (1 :: f2.den_coefs))
    ∧ ((specConvolve (1 :: f1.den_coefs) (1 :: f2.den_coefs)).drop 1).length
        = (f1.den_coefs.length + 1) + (f2.den_coefs.length + 1) - 2
    ∧ combineIIRFilters f1 f2
        = (combineNumLoop f1.num_coefs f2.num_coefs
            (List.replicate (f1.num_coefs.length + f2.num_coefs.length - 1) (0 : α))).map
            (fun workingNum =>
              { num_coefs := workingNum,
                den_coefs := (specConvolve (1 :: f1.den_coefs) (1 :: f2.den_coefs)).drop 1,
                gain := f1.gain * f2.gain })
    ∧ (∀ r, combineIIRFilters f1 f2 = some r →
        r.den_coefs = (specConvolve (1 :: f1.den_coefs) (1 :: f2.den_coefs)).drop 1
        ∧ r.gain = f1.gain * f2.gain)
    ∧ (f1.num_coefs.length ≤ f2.num_coefs.length → (combineIIRFilters f1 f2).isSome = true) := by
  have hden := combineDenLoop_eq_specConvolve f1.den_coefs f2.den_coefs
  have hcomb : combineIIRFilters f1 f2
        = (combineNumLoop f1.num_coefs f2.num_coefs
            (List.replicate (f1.num_coefs.length + f2.num_coefs.length - 1) (0 : α))).map
            (fun workingNum =>
              { num_coefs := workingNum,
                den_coefs := (specConvolve (1 :: f1.den_coefs) (1 :: f2.den_coefs)).drop 1,
                gain := f1.gain * f2.gain }) := by
    unfold combineIIRFilters
    simp only [hden, Option.bind_eq_bind, Option.some_bind]
    cases combineNumLoop f1.num_coefs f2.num_coefs
        (List.replicate (f1.num_coefs.length + f2.num_coefs.length - 1) (0 : α)) with
    | none => rfl
    | some w => rfl
  refine ⟨?_, hden, ?_, hcomb, ?_, ?_⟩
  · rw [specConvolve_eq_sum]
    simp
  · simp [specConvolve]
    omega
  · intro r hr
    rw [hcomb] at hr
    cases hnum : combineNumLoop f1.num_coefs f2.num_coefs
        (List.replicate (f1.num_coefs.length + f2.num_coefs.length - 1) (0 : α)) with
    | none => simp [hnum] at hr
    | some w =>
      simp only [hnum, Option.map_some', Option.some.injEq] at hr
      subst hr
      exact ⟨rfl, rfl⟩
  · intro hlen
    rw [hcomb, Option.isSome_map']
    exact combineNumLoop_isSome f1.num_coefs f2.num_coefs hlen

/-! ## Theorems: `designSincLowpass` -/

/-- The first tap of the three-tap windowed sinc over the reals. -/
theorem designSincLowpass_three_first (ω : ℝ) :
    (designSincLowpass Real.sin Real.cos Real.pi 3 ω).num_coefs[0]?
      = some (Real.sin (Real.pi * (ω * 2)) / (Real.pi * (ω * 2)) * (6 / 100000)) := by
  have hc : (((3 - 1 : Nat) : ℝ)) = 2 := by norm_num
  have hx : Real.pi * ((0 : ℝ) - 2 / 2) * (ω * 2) = -(Real.pi * (ω * 2)) := by ring
  simp only [designSincLowpass, List.range_succ, List.range_zero, List.nil_append,
    List.map_append, List.map_cons, List.map_nil, List.cons_append, List.getElem?_cons_zero,
    Nat.cast_zero, hc, hx, Real.sin_neg, neg_div_neg_eq, zero_div, zero_mul, mul_zero,
    Real.cos_zero, Option.some.injEq]
  norm_num

/-- The windowed sinc is even in `omega` whenever the sine is odd. -/
theorem designSincLowpass_neg {α : Type} [Field α] [DecidableEq α] (sin cos : α → α) (PI : α)
    (hsin : ∀ x, sin (-x) = -sin x) (N : Nat) (omega : α) :
    designSincLowpass sin cos PI N (-omega) = designSincLowpass sin cos PI N omega := by
  have hx : ∀ t : α, t * (-omega * 2) = -(t * (omega * 2)) := by
    intro t
    ring
  simp only [designSincLowpass, hx, hsin, neg_div_neg_eq]

/-- C13, counterexample: over the reals, with three taps, the filter designed for
`omega = 3/4` (which is not below 1/2) is the filter designed for no `omega'` strictly
between 0 and 1/2: its first tap is negative, theirs is positive.  Nothing clamps
`omega`. -/
theorem designSincLowpass_does_not_clamp :
    (1 / 2 : ℝ) ≤ 3 / 4
    ∧ ¬ ∃ ω' : ℝ, 0 < ω' ∧ ω' < 1 / 2
        ∧ designSincLowpass Real.sin Real.cos Real.pi 3 (3 / 4)
            = designSincLowpass Real.sin Real.cos Real.pi 3 ω' := by
  refine ⟨by norm_num, ?_⟩
  rintro ⟨ω', h0, h1, heq⟩
  have h := congrArg (fun f => f.num_coefs[0]?) heq
  simp only [designSincLowpass_three_first, Option.some.injEq] at h
  have hpi := Real.pi_pos
  have hs1 : Real.sin (Real.pi * (3 / 4 * 2)) = -1 := by
    have e : Real.pi * (3 / 4 * 2) = Real.pi / 2 + Real.pi := by ring
    rw [e, Real.sin_add_pi, Real.sin_pi_div_two]
  have hx1 : 0 < Real.pi * (3 / 4 * 2) := by positivity
  have hx2 : 0 < Real.pi * (ω' * 2) := by positivity
  have hx3 : Real.pi * (ω' * 2) < Real.pi := by nlinarith
  have hs2 : 0 < Real.sin (Real.pi * (ω' * 2)) := Real.sin_pos_of_pos_of_lt_pi hx2 hx3
  have hl : Real.sin (Real.pi * (3 / 4 * 2)) / (Real.pi * (3 / 4 * 2)) * (6 / 100000) < 0 := by
    rw [hs1]
    have : (-1 : ℝ) / (Real.pi * (3 / 4 * 2)) < 0 := div_neg_of_neg_of_pos (by norm_num) hx1
    exact mul_neg_of_neg_of_pos this (by norm_num)
  have hr : 0 < Real.sin (Real.pi * (ω' * 2)) / (Real.pi * (ω' * 2)) * (6 / 100000) :=
    mul_pos (div_pos hs2 hx2) (by norm_num)
  linarith

/-- C13, as the code has it: `designSincLowpass` has no check on `omega` and no clamp; it
returns a filter for every `omega`, and since the sinc is even in `omega`, for
`-1/2 < omega < 0` the filter returned is the one designed for `-omega`, which lies
strictly between 0 and 1/2 (over the reals). -/
theorem designSincLowpass_negative_omega (N : Nat) (ω : ℝ) (h1 : -(1 / 2) < ω) (h2 : ω < 0) :
    ∃ ω' : ℝ, 0 < ω' ∧ ω' < 1 / 2
      ∧ designSincLowpass Real.sin Real.cos Real.pi N ω
          = designSincLowpass Real.sin Real.cos Real.pi N ω' := by
  refine ⟨-ω, by linarith, by linarith, ?_⟩
  rw [designSincLowpass_neg Real.sin Real.cos Real.pi Real.sin_neg N ω]

/-- A concrete case for C13: three taps and `omega = -1/4`. -/
theorem designSincLowpass_negative_omega_witness :
    (-(1 / 2) < (-(1 / 4) : ℝ) ∧ (-(1 / 4) : ℝ) < 0)
    ∧ ∃ ω' : ℝ, 0 < ω' ∧ ω' < 1 / 2
        ∧ designSincLowpass Real.sin Real.cos Real.pi 3 (-(1 / 4))
            = designSincLowpass Real.sin Real.cos Real.pi 3 ω' :=
  ⟨⟨by norm_num, by norm_num⟩,
    designSincLowpass_negative_omega 3 (-(1 / 4)) (by norm_num) (by norm_num)⟩

/-! ## Theorems: the event queue -/

/-- C12: while the sender is disabled `EventSender::enqueue` leaves it as it is, so the
pending queue is unchanged and, events being enabled afterwards, every later
`getNextEvent` gives what it would have given without the call; while the sender is
enabled `enqueue` appends exactly one pending event, which carries the given event and
the given handles. -/
theorem enqueue_is_noop_iff_disabled (pending : List PendingEvent) (event : syz_Event)
    (handles : List WeakPtr) (heaps : List Heap) :
    EventSender.enqueue { pending_events := pending, enabled := false } event handles
        = { pending_events := pending, enabled := false }
    ∧ EventSender.getNextEvents heaps
          ((EventSender.enqueue { pending_events := pending, enabled := false } event
              handles).setEnabled true)
        = EventSender.getNextEvents heaps
            (EventSender.setEnabled { pending_events := pending, enabled := false } true)
    ∧ EventSender.enqueue { pending_events := pending, enabled := true } event handles
        = { pending_events :=
              pending ++ [{ event := event, referenced_handles := handles, valid := true }],
            enabled := true } := by
  refine ⟨?_, ?_, ?_⟩
  · simp [EventSender.enqueue]
  · simp [EventSender.enqueue]
  · simp [EventSender.enqueue]

/-- What a run of `getNextEvent` calls returns: the pending events are extracted oldest
first, one per call, and once the queue is empty every further call gives the all-zero
event. -/
theorem getNextEvents_eq (enabled : Bool) :
    ∀ (heaps : List Heap) (pending : List PendingEvent),
      EventSender.getNextEvents heaps { pending_events := pending, enabled := enabled }
        = (List.zipWith (fun heap pe => PendingEvent.extract heap pe syz_Event.zero) heaps pending
              ++ List.replicate (heaps.length - pending.length) syz_Event.zero,
           { pending_events := pending.drop heaps.length, enabled := enabled }) := by
  intro heaps
  induction heaps with
  | nil =>
    intro pending
    simp [EventSender.getNextEvents]
  | cons heap heaps ih =>
    intro pending
    cases pending with
    | nil =>
      have h := ih []
      simp only [List.zipWith_nil_right, List.nil_append, List.length_nil, Nat.sub_zero,
        List.drop_nil] at h
      simp [EventSender.getNextEvents, EventSender.getNextEvent, h, List.replicate_succ]
    | cons pe rest =>
      have h := ih rest
      simp [EventSender.getNextEvents, EventSender.getNextEvent, h, PendingEvent.extract]

/-- C17: `EventSender::getNextEvent` on an empty queue outputs the all-zero event (type
`SYZ_EVENT_TYPE_INVALID`) and leaves the queue empty; on a non-empty queue it removes
exactly the oldest pending event and outputs what `extract` gives for it, valid or not;
so `k` calls output the extractions of the first `k` pending events in the order they
were enqueued (all-zero events once the queue has run out) and leave the queue without
its first `k` events, `m - k` of them when `k ≤ m`; and a dequeued event with an invalid
handle gives the same all-zero output as the empty queue. -/
theorem getNextEvent_consumes_in_fifo_order (heap : Heap) (heaps : List Heap)
    (pe : PendingEvent) (pending : List PendingEvent) (enabled : Bool) (out : syz_Event) :
    EventSender.getNextEvent heap { pending_events := [], enabled := enabled } out
        = (syz_Event.zero, { pending_events := [], enabled := enabled })
    ∧ syz_Event.zero.type = SYZ_EVENT_TYPE_INVALID
    ∧ EventSender.getNextEvent heap { pending_events := pe :: pending, enabled := enabled } out
        = (PendingEvent.extract heap pe out, { pending_events := pending, enabled := enabled })
    ∧ EventSender.getNextEvents heaps { pending_events := pending, enabled := enabled }
        = (List.zipWith (fun heap pe => PendingEvent.extract heap pe syz_Event.zero) heaps pending
              ++ List.replicate (heaps.length - pending.length) syz_Event.zero,
           { pending_events := pending.drop heaps.length, enabled := enabled })
    ∧ (EventSender.getNextEvents heaps
          { pending_events := pending, enabled := enabled }).2.pending_events.length
        = pending.length - heaps.length
    ∧ ((pe.referenced_handles.all (fun o => hasValidCHandleWeak heap o)) = false →
        (EventSender.getNextEvent heap
            { pending_events := pe :: pending, enabled := enabled } out).1
          = (EventSender.getNextEvent heap { pending_events := [], enabled := enabled } out).1) := by
  refine ⟨rfl, rfl, ?_, getNextEvents_eq enabled heaps pending, ?_, ?_⟩
  · simp [EventSender.getNextEvent, PendingEvent.extract]
  · rw [getNextEvents_eq]
    simp
  · intro hstale
    simp [EventSender.getNextEvent, PendingEvent.extract, extractLoop_eq, hstale]

/-! ## Theorems: sending looped and finished events -/

/-- C16 (the code departs from the specification): a live context with events enabled
sends a looped or a finished event for a source that is permanently dead.  `setSource`
does not associate the source and leaves `will_send` set, so `dispatch` reaches its
assertion that events must have sources, and the assertion fails; the same happens for
a null source. -/
theorem sendLoopedEvent_dead_source_fails_assertion :
    sendLoopedEvent
        (some { self := { addr := 1, obj := { c_handle := 10, userdata := 0,
                                              permanently_dead := false } },
                event_sender := { pending_events := [], enabled := true } })
        (some { addr := 2, obj := { c_handle := 20, userdata := 0, permanently_dead := true } })
      = Checked.failed SendFailure.eventsMustHaveSources
    ∧ sendFinishedEvent
        (some { self := { addr := 1, obj := { c_handle := 10, userdata := 0,
                                              permanently_dead := false } },
                event_sender := { pending_events := [], enabled := true } })
        (some { addr := 2, obj := { c_handle := 20, userdata := 0, permanently_dead := true } })
      = Checked.failed SendFailure.eventsMustHaveSources
    ∧ sendLoopedEvent
        (some { self := { addr := 1, obj := { c_handle := 10, userdata := 0,
                                              permanently_dead := false } },
                event_sender := { pending_events := [], enabled := true } })
        none
      = Checked.failed SendFailure.eventsMustHaveSources
    ∧ ((EventBuilder.fresh.setSource
          (some { addr := 2, obj := { c_handle := 20, userdata := 0,
                                      permanently_dead := true } })).will_send = true
        ∧ (EventBuilder.fresh.setSource
          (some { addr := 2, obj := { c_handle := 20, userdata := 0,
                                      permanently_dead := true } })).has_source = false) := by
  decide

/-! ## Theorems: further evaluations of `fillBufferFromDecoder` and `combineIIRFilters` -/

/-- C14 (the code departs from the specification): with looping on, a seekable stream
of one frame (sample value 1) and 256 frames requested from frame 0,
`fillBufferFromDecoder` returns two decoded frames followed by 254 frames of zero
padding, with `looped_count = 1` and `finished_count = 1`: after the seek the read
returns data, the latch stays set, and the loop breaks as if the stream had ended. -/
theorem fillBufferFromDecoder_looping_short_stream_pads :
    fillBufferFromDecoder 2 (finiteDecoder 44100 1 1 true (fun _ => 1)) 0 256 1
        (List.replicate 256 0) true 0
      = some (FillOutcome.returned
          { position := 1 / 44100, looped_count := 1, finished_count := 1 }
          ([1, 1] ++ List.replicate 254 0) 1) := by
  decide!

/-- C15 (the code departs from the specification): with `num1 = 2` and `num2 = 1` the
numerator loop of `combineIIRFilters` reads `f2.num_coefs[1]` in its pass `i = 1`, past
the one entry of that array, so the embedded function has no result; with the two
filters exchanged (`num1 = 1`, `num2 = 2`) every access is inside its array. -/
theorem combineIIRFilters_reads_out_of_bounds :
    combineNumLoop ([1, 2] : List ℚ) [3] [0, 0] = none
    ∧ ([3] : List ℚ)[1]? = none
    ∧ combineIIRFilters (⟨[1, 2], [], 1⟩ : IIRFilterDef ℚ) ⟨[3], [], 1⟩ = none
    ∧ combineIIRFilters (⟨[3], [], 1⟩ : IIRFilterDef ℚ) ⟨[1, 2], [], 1⟩
        = some ⟨[3, 3], [], 1⟩ := by
  decide!

end synthizer
